import Mathlib

/-!
# Shallow embedding of `cpp_modules/rgb_correction.cpp`

The per-pixel correction pipeline (BLC/SLC, GLC, Dark GLC and the orchestrating
`apply_corrections`) is modelled by explicit state passing:

* an `unsigned char` is a `Byte = Fin 256`; a buffer is a `List Byte`;
* a `const int*` map is an `Option (List Int)` (`none` is the null pointer);
* every function that touches memory returns an `Option`: `none` stands for
  undefined behaviour (reading through a null pointer, indexing outside a
  buffer, a failed allocation);
* `int` arithmetic on samples, map values and offsets is arithmetic on `Int`
  followed by `wrapInt` (two's complement, 32 bit) wherever the source
  operation can leave the `int` range; operations whose operands are bounded by
  construction (all of GLC) are plain `Int` operations;
* `/` on `int` is `Int.tdiv` (truncation toward zero), `%` is `Int.tmod`; a
  division whose divisor is not known to be positive goes through `intDiv` /
  `intMod`, which are undefined (`none`) for the divisor `0`;
* the pixel count `width * height` and the byte indices `i * 3`, `i * 3 + k`
  are `int` values as well and wrap; a buffer is indexed by an `int`
  (`loadAt`, `storeAt`), a negative index is outside the buffer. The loop
  counter `i` itself never leaves the `int` range (`i < total_pixels`);
* `float` is IEEE binary32 with round-to-nearest-even, see `F32`.
-/

namespace RgbCorrection

/-! ## Machine-level primitives -/

/-- An `unsigned char`. -/
abbrev Byte := Fin 256

/-- Conversion `int → unsigned char` (reduction modulo 256). -/
def toByte (v : Int) : Byte := Fin.ofNat (v % 256).toNat

/-- Two's complement wrap of a mathematical integer into the 32-bit `int` range. -/
def wrapInt (x : Int) : Int := (x + 2147483648) % 4294967296 - 2147483648

/-- The values of type `int`. -/
def isInt32 (x : Int) : Prop := -2147483648 ≤ x ∧ x ≤ 2147483647

instance (x : Int) : Decidable (isInt32 x) := by
  unfold isInt32; exact inferInstance

/-- Read `p[i]` through a possibly null `const int*`. -/
def loadMap (p : Option (List Int)) (i : Nat) : Option Int :=
  match p with
  | none => none
  | some m => m[i]?

/-- Write `buf[i] = v`; outside the buffer the behaviour is undefined. -/
def store {α : Type} (buf : List α) (i : Nat) (v : α) : Option (List α) :=
  if i < buf.length then some (buf.set i v) else none

/-- Read `buf[idx]` with an `int` index; outside the buffer the behaviour is
undefined. -/
def loadAt {α : Type} (buf : List α) (idx : Int) : Option α :=
  if idx < 0 then none else buf[idx.toNat]?

/-- Write `buf[idx] = v` with an `int` index; outside the buffer the behaviour
is undefined. -/
def storeAt {α : Type} (buf : List α) (idx : Int) (v : α) : Option (List α) :=
  if idx < 0 then none else store buf idx.toNat v

/-- The quotient `a / b` of two `int`s; undefined for `b = 0`. -/
def intDiv (a b : Int) : Option Int :=
  if b = 0 then none else some (wrapInt (Int.tdiv a b))

/-- The remainder `a % b` of two `int`s; undefined for `b = 0`. -/
def intMod (a b : Int) : Option Int :=
  if b = 0 then none else some (Int.tmod a b)

/-- The loop `for (int i = start; i < start + count; i++) body`, with the
iteration count as the structurally decreasing argument. -/
def forLoop {σ : Type} (body : Nat → σ → Option σ) : Nat → Nat → σ → Option σ
  | 0, _, s => some s
  | count + 1, i, s =>
    match body i s with
    | none => none
    | some s' => forLoop body count (i + 1) s'

/-! ## Utility primitives (lines 5-15) -/

/-- The function `clamp_byte` (lines 6-10). -/
def clamp_byte (value : Int) : Byte :=
  if value < 0 then 0
  else if value > 255 then 255
  else toByte value

/-- The function `max_one` (lines 13-15). -/
def max_one (value : Int) : Int :=
  if value < 1 then 1 else value

/-! ## BLC/SLC kernel (lines 21-66) -/

/-- The `int` value `corrX` that one channel block of the loop body hands to
`clamp_byte` (lines 43-47, 51-55, 59-63; the three blocks differ only in the
maps they read). -/
def blc_slc_corr (val blc slc blc_offset slc_offset : Int) : Int :=
  let blcX_offset := wrapInt (blc + blc_offset)
  let slcX_offset := wrapInt (slc + slc_offset)
  let corrX := wrapInt (val - blcX_offset)
  Int.tdiv (wrapInt (corrX * 255)) (max_one (wrapInt (slcX_offset - blcX_offset)))

/-- One channel block of the loop body: read the sample at `idx`, the two map
entries at `i`, store the corrected byte at `idx`. -/
def blc_slc_channel (blc slc : Option (List Int)) (blc_offset slc_offset : Int)
    (i : Nat) (idx : Int) (frame : List Byte) : Option (List Byte) :=
  match loadAt frame idx with
  | none => none
  | some val =>
    match loadMap blc i with
    | none => none
    | some blcv =>
      match loadMap slc i with
      | none => none
      | some slcv =>
        storeAt frame idx
          (clamp_byte (blc_slc_corr (val.val : Int) blcv slcv blc_offset slc_offset))

/-- Loop body of `apply_blc_slc_correction` (lines 38-64). The locals `y` and
`x` (lines 38-39) are never read, but their division and remainder by `width`
are executed. -/
def blc_slc_body (width : Int) (blc_r blc_g blc_b slc_r slc_g slc_b : Option (List Int))
    (blc_offset slc_offset : Int) (i : Nat) (frame : List Byte) : Option (List Byte) :=
  (intDiv (i : Int) width).bind fun _y =>
  (intMod (i : Int) width).bind fun _x =>
  let pixel_idx := wrapInt ((i : Int) * 3)
  (blc_slc_channel blc_b slc_b blc_offset slc_offset i pixel_idx frame).bind fun frame1 =>
  (blc_slc_channel blc_g slc_g blc_offset slc_offset i (wrapInt (pixel_idx + 1))
    frame1).bind fun frame2 =>
  blc_slc_channel blc_r slc_r blc_offset slc_offset i (wrapInt (pixel_idx + 2)) frame2

/-- The function `apply_blc_slc_correction` (lines 21-66). -/
def apply_blc_slc_correction (frame : List Byte) (width height : Int)
    (blc_r blc_g blc_b slc_r slc_g slc_b : Option (List Int))
    (blc_offset slc_offset : Int) : Option (List Byte) :=
  let total_pixels := wrapInt (width * height)
  forLoop (blc_slc_body width blc_r blc_g blc_b slc_r slc_g slc_b blc_offset slc_offset)
    total_pixels.toNat 0 frame

/-! ## GLC kernel (lines 72-128) -/

/-- The `int` value `iVal` that the loop body of `apply_glc_correction` holds at
line 126, computed from the sample `iVal` and the map entry `g_raw`
(lines 82-124). All operands are bounded by 255, no operation can overflow. -/
def glc_value (iVal g_raw : Int) : Int :=
  let maxv : Int := 255
  let mid : Int := 127      -- maxv >> 1
  let midp : Int := 128     -- mid + 1
  let g_raw := if g_raw < 0 then 0 else if g_raw > maxv then maxv else g_raw
  if g_raw ≠ 0 then
    let c := iVal
    let c :=
      if g_raw < mid then
        let g := if g_raw < 1 then 1 else g_raw
        if c > g then
          let denom := maxv - g
          if denom > 0 then mid + Int.tdiv ((c - g) * midp) denom else mid
        else
          Int.tdiv (c * mid) g
      else if g_raw > mid then
        let g := if g_raw < 1 then 1 else g_raw
        if c > g then
          let denom := maxv - g
          if denom > 0 then mid + Int.tdiv ((c - g) * mid) denom else maxv
        else
          Int.tdiv (c * midp) g
      else c
    let c := if c < 0 then 0 else if c > maxv then maxv else c
    c
  else iVal

/-- Loop body of `apply_glc_correction` (lines 82-126). -/
def glc_body (glc_map : Option (List Int)) (i : Nat) (channel : List Byte) :
    Option (List Byte) :=
  match channel[i]? with
  | none => none
  | some iVal =>
    match loadMap glc_map i with
    | none => none
    | some g_raw => store channel i (toByte (glc_value (iVal.val : Int) g_raw))

/-- The function `apply_glc_correction` (lines 72-128). -/
def apply_glc_correction (channel : List Byte) (total_pixels : Int)
    (glc_map : Option (List Int)) : Option (List Byte) :=
  forLoop (glc_body glc_map) total_pixels.toNat 0 channel

/-! ## IEEE binary32 arithmetic used by the Dark GLC kernel -/

/-- A finite `float` value `m * 2 ^ e`. Every operation below rounds its exact
result to binary32 once (`FLT_EVAL_METHOD` 0, no contraction). -/
structure F32 where
  m : Int
  e : Int
deriving DecidableEq

/-- Number of binary digits of `n` (`fuel` bounds the recursion). -/
def bitLen : Nat → Nat → Nat
  | 0, _ => 0
  | fuel + 1, n => if n = 0 then 0 else bitLen fuel (n / 2) + 1

namespace F32

/-- The binary32 nearest to the rational `p / q` (`q > 0`), ties to even: the
significand is the quotient scaled to 24 binary digits. The exponent is not
bounded, so the result is the IEEE result whenever that is zero or a normal
number. The kernel only converts `int` values and forms quotients and products
of such conversions with magnitudes between `2 ^ (-31)` and `2 ^ 38`, all of
them in the normal range. For `q = 0` (an IEEE infinity or NaN, which the kernel
never produces: its divisors are conversions of non-zero integers and their
quotients) the value is `0`. -/
def round (p : Int) (q : Nat) : F32 :=
  let a := p.natAbs
  if a = 0 ∨ q = 0 then ⟨0, 0⟩
  else
    -- 2 ^ (l - 1) < a / q < 2 ^ (l + 1)
    let l : Int := (bitLen a a : Int) - (bitLen q q : Int)
    let ge : Bool := if 0 ≤ l then decide (q * 2 ^ l.toNat ≤ a) else decide (q ≤ a * 2 ^ (-l).toNat)
    -- 2 ^ L ≤ a / q < 2 ^ (L + 1)
    let L : Int := if ge then l else l - 1
    let e : Int := L - 23
    let num : Nat := if 0 ≤ e then a else a * 2 ^ (-e).toNat
    let den : Nat := if 0 ≤ e then q * 2 ^ e.toNat else q
    let m0 := num / den
    let r := num % den
    let m : Nat := if den < 2 * r ∨ (2 * r = den ∧ m0 % 2 = 1) then m0 + 1 else m0
    ⟨if p < 0 then -(m : Int) else (m : Int), e⟩

/-- Conversion `(float)n` of an `int`. -/
def ofInt (n : Int) : F32 := round n 1

/-- Division `x / y` of two `float`s. -/
def div (x y : F32) : F32 :=
  let p := if y.m < 0 then -x.m else x.m
  let q := y.m.natAbs
  let d := x.e - y.e
  if 0 ≤ d then round (p * 2 ^ d.toNat) q else round p (q * 2 ^ (-d).toNat)

/-- Product `x * y` of two `float`s. -/
def mul (x y : F32) : F32 :=
  let d := x.e + y.e
  if 0 ≤ d then round (x.m * y.m * 2 ^ d.toNat) 1 else round (x.m * y.m) (2 ^ (-d).toNat)

/-- Conversion `(int)x` of a `float`: truncation toward zero. -/
def toInt (x : F32) : Int :=
  if 0 ≤ x.e then x.m * 2 ^ x.e.toNat else Int.tdiv x.m (2 ^ (-x.e).toNat)

end F32

/-- The `int` value `c` that the loop body of `apply_dark_glc_correction` holds
at line 178, computed from the sample `c` and the map entry `dg`
(lines 144-176). -/
def dark_glc_value (c dg : Int) : Int :=
  let maxv : Int := 255
  let quarter : Int := 64     -- (maxv + 1) / 4
  let half : Int := 128       -- (maxv + 1) / 2
  let a := c
  if dg ≠ 0 then
    let c :=
      if dg < quarter then
        if c > dg ∧ c < half then
          quarter + F32.toInt (F32.div (F32.ofInt (wrapInt (c - dg)))
            (F32.div (F32.ofInt (wrapInt (half - dg))) (F32.ofInt quarter)))
        else if c < quarter then
          let glc_correction := F32.div (F32.ofInt quarter) (F32.ofInt dg)
          F32.toInt (F32.mul (F32.ofInt c) glc_correction)
        else c
      else if dg > quarter ∧ dg < half then
        if c > dg then
          let glc_correction := F32.div (F32.ofInt quarter) (F32.ofInt (half - dg))
          let c := quarter + F32.toInt (F32.mul (F32.ofInt (c - dg)) glc_correction)
          (a + c) >>> 1
        else
          let c := F32.toInt (F32.div (F32.ofInt c) (F32.div (F32.ofInt dg) (F32.ofInt quarter)))
          (a + c) >>> 1
      else c
    let c := if c > maxv then maxv else c
    let c := if c < 0 then 0 else c
    c
  else c

/-- Loop body of `apply_dark_glc_correction` (lines 144-178). -/
def dark_glc_body (dark_glc_map : Option (List Int)) (i : Nat) (channel : List Byte) :
    Option (List Byte) :=
  match channel[i]? with
  | none => none
  | some c =>
    match loadMap dark_glc_map i with
    | none => none
    | some dg => store channel i (toByte (dark_glc_value (c.val : Int) dg))

/-- The function `apply_dark_glc_correction` (lines 134-180). -/
def apply_dark_glc_correction (channel : List Byte) (total_pixels : Int)
    (dark_glc_map : Option (List Int)) : Option (List Byte) :=
  forLoop (dark_glc_body dark_glc_map) total_pixels.toNat 0 channel

/-! ## Orchestrator (lines 186-281) -/

/-- The allocation `new unsigned char[n]`. A negative `n` makes the allocation
fail. The cells are uninitialised in the source; the extraction loop writes each
of them before it is read, `0` stands for the indeterminate content. -/
def allocBytes (n : Int) : Option (List Byte) :=
  if n < 0 then none else some (List.replicate n.toNat 0)

/-- Body of the extraction loop (lines 229-231 and 260-262); the state is
`(channel_b, channel_g, channel_r)`. -/
def extract_body (frame : List Byte) (i : Nat)
    (s : List Byte × List Byte × List Byte) : Option (List Byte × List Byte × List Byte) :=
  (loadAt frame (wrapInt ((i : Int) * 3))).bind fun b =>
  (store s.1 i b).bind fun channel_b =>
  (loadAt frame (wrapInt (wrapInt ((i : Int) * 3) + 1))).bind fun g =>
  (store s.2.1 i g).bind fun channel_g =>
  (loadAt frame (wrapInt (wrapInt ((i : Int) * 3) + 2))).bind fun r =>
  (store s.2.2 i r).bind fun channel_r =>
  some (channel_b, channel_g, channel_r)

/-- Body of the merge loop (lines 241-243 and 272-274). -/
def merge_body (channel_b channel_g channel_r : List Byte) (i : Nat) (frame : List Byte) :
    Option (List Byte) :=
  (channel_b[i]?).bind fun b =>
  (storeAt frame (wrapInt ((i : Int) * 3)) b).bind fun frame1 =>
  (channel_g[i]?).bind fun g =>
  (storeAt frame1 (wrapInt (wrapInt ((i : Int) * 3) + 1)) g).bind fun frame2 =>
  (channel_r[i]?).bind fun r =>
  storeAt frame2 (wrapInt (wrapInt ((i : Int) * 3) + 2)) r

/-- The block shared by STEP 2 and STEP 3 (lines 222-248 and 253-279): allocate
the three planes, extract, run `kernel` on the b, g and r plane in this order,
merge back. -/
def plane_step (kernel : List Byte → Int → Option (List Int) → Option (List Byte))
    (frame : List Byte) (total_pixels : Int) (map_r map_g map_b : Option (List Int)) :
    Option (List Byte) :=
  match allocBytes total_pixels with
  | none => none
  | some channel_b =>
  match allocBytes total_pixels with
  | none => none
  | some channel_g =>
  match allocBytes total_pixels with
  | none => none
  | some channel_r =>
  match forLoop (extract_body frame) total_pixels.toNat 0 (channel_b, channel_g, channel_r) with
  | none => none
  | some (channel_b, channel_g, channel_r) =>
  match kernel channel_b total_pixels map_b with
  | none => none
  | some channel_b =>
  match kernel channel_g total_pixels map_g with
  | none => none
  | some channel_g =>
  match kernel channel_r total_pixels map_r with
  | none => none
  | some channel_r =>
  forLoop (merge_body channel_b channel_g channel_r) total_pixels.toNat 0 frame

/-- The function `apply_corrections` (lines 186-281). -/
def apply_corrections (frame : List Byte) (width height : Int)
    (blc_r blc_g blc_b slc_r slc_g slc_b : Option (List Int))
    (glc_r glc_g glc_b : Option (List Int))
    (dark_glc_r dark_glc_g dark_glc_b : Option (List Int))
    (enable_blc_slc enable_glc enable_dark_glc : Bool)
    (blc_offset slc_offset : Int) : Option (List Byte) :=
  let total_pixels := wrapInt (width * height)
  -- STEP 1
  match (if enable_blc_slc ∧ blc_r ≠ none ∧ slc_r ≠ none then
      apply_blc_slc_correction frame width height blc_r blc_g blc_b slc_r slc_g slc_b
        blc_offset slc_offset
    else some frame) with
  | none => none
  | some frame =>
  -- STEP 2
  match (if enable_glc ∧ glc_r ≠ none then
      plane_step apply_glc_correction frame total_pixels glc_r glc_g glc_b
    else some frame) with
  | none => none
  | some frame =>
  -- STEP 3
  if enable_dark_glc ∧ dark_glc_r ≠ none then
    plane_step apply_dark_glc_correction frame total_pixels dark_glc_r dark_glc_g dark_glc_b
  else some frame



/-! ## Auxiliary definitions for the statements -/

/-- The common shape of the loop bodies of the two plane kernels. -/
def planeBody (f : Int → Int → Int) (map : Option (List Int)) (i : Nat)
    (channel : List Byte) : Option (List Byte) :=
  match channel[i]? with
  | none => none
  | some c =>
    match loadMap map i with
    | none => none
    | some g => store channel i (toByte (f (c.val : Int) g))

/-- Channel `k` of a pixel: `0` is blue, `1` is green, `2` is red (BGR order). -/
def selBGR {α : Type} (k : Nat) (b g r : α) : α :=
  if k = 0 then b else if k = 1 then g else r

/-- Well-formed input of the BLC/SLC kernel: the pixel count `width * height`
and the byte count `3 * width * height` are `int` values, the frame has three
bytes per pixel and each of the six maps has one entry per pixel. -/
structure BlcSlcInput (frame : List Byte) (width height : Int)
    (blc_r blc_g blc_b slc_r slc_g slc_b : List Int) : Prop where
  pixels_fit : isInt32 (width * height)
  bytes_fit : 3 * (width * height) ≤ 2147483647
  frame_len : frame.length = 3 * (width * height).toNat
  blc_r_len : blc_r.length = (width * height).toNat
  blc_g_len : blc_g.length = (width * height).toNat
  blc_b_len : blc_b.length = (width * height).toNat
  slc_r_len : slc_r.length = (width * height).toNat
  slc_g_len : slc_g.length = (width * height).toNat
  slc_b_len : slc_b.length = (width * height).toNat


/-- Well-formed input of a plane kernel: plane and map have at least
`total_pixels` entries. -/
structure PlaneInput (channel : List Byte) (total_pixels : Int) (map : List Int) : Prop where
  channel_len : total_pixels.toNat ≤ channel.length
  map_len : total_pixels.toNat ≤ map.length

/-- A pipeline stage that runs `stage` when `run` holds and is the identity
otherwise (§4.5: "each independently skippable"). -/
def gatedStage (run : Prop) [Decidable run] (stage : List Byte → Option (List Byte))
    (frame : List Byte) : Option (List Byte) :=
  if run then stage frame else some frame

/-! ## Reference definitions, following the specification's wording -/

/-- `clampByte` of §4.1 on mathematical integers: 0 if `v < 0`, 255 if
`v > 255`, else `v`. -/
def clampByte (v : Int) : Int :=
  if v < 0 then 0 else if v > 255 then 255 else v

/-- `maxOne` of §4.1 on mathematical integers: 1 if `v < 1`, else `v`. -/
def maxOne (v : Int) : Int :=
  if v < 1 then 1 else v

/-- The reference formula of §4.2 on mathematical integers, with the division
truncating toward zero. -/
def blc_slc_reference (raw blc slc blc_offset slc_offset : Int) : Int :=
  clampByte (Int.tdiv ((raw - (blc + blc_offset)) * 255)
    (maxOne ((slc + slc_offset) - (blc + blc_offset))))

/-- None of the five `int` intermediates of one BLC/SLC channel block leaves the
32-bit range. -/
def blc_slc_no_overflow (raw blc slc blc_offset slc_offset : Int) : Prop :=
  isInt32 (blc + blc_offset) ∧ isInt32 (slc + slc_offset) ∧
  isInt32 (raw - (blc + blc_offset)) ∧ isInt32 ((raw - (blc + blc_offset)) * 255) ∧
  isInt32 ((slc + slc_offset) - (blc + blc_offset))

instance (raw blc slc blc_offset slc_offset : Int) :
    Decidable (blc_slc_no_overflow raw blc slc blc_offset slc_offset) := by
  unfold blc_slc_no_overflow; exact inferInstance

/-- The two-branch reference definition of the GLC tone curve (§4.3) for a
sample `c` and a map value `m`. -/
def glc_reference (c m : Int) : Int :=
  let g := max 0 (min m 255)
  if g = 0 ∨ g = 127 then c
  else if g < 127 then
    if c > g then clampByte (127 + Int.tdiv ((c - g) * 128) (255 - g))
    else clampByte (Int.tdiv (c * 127) g)
  else
    if c > g then clampByte (127 + Int.tdiv ((c - g) * 127) (255 - g))
    else clampByte (Int.tdiv (c * 128) g)

/-! ## Instrumented GLC loop body -/

/-- The path a sample takes through the loop body of `apply_glc_correction`. -/
inductive GlcBranch where
  /-- The test `g_raw != 0` of line 89 fails. -/
  | skip
  /-- `g_raw < mid` and `c > g` (lines 97-100). -/
  | shadowStretch
  /-- `g_raw < mid` and `c <= g` (line 102). -/
  | shadowCompress
  /-- `g_raw > mid` and `c > g` (lines 110-113). -/
  | highlightCompress
  /-- `g_raw > mid` and `c <= g` (line 115). -/
  | highlightStretch
  /-- `g_raw == mid`: neither branch. -/
  | midpoint
deriving DecidableEq

/-- What one execution of the loop body of `apply_glc_correction` does: the
value it stores, the path taken, the divisor of the integer division it
executes (if any), whether a `denom > 0` test failed (the constant `mid` or
`maxv` was taken instead of the quotient) and whether `g_raw < 1` held inside a
branch (`g` was floored to 1). -/
structure GlcRun where
  value : Int
  branch : GlcBranch
  divisor : Option Int
  fallback : Bool
  floored : Bool
deriving DecidableEq

/-- The loop body of `apply_glc_correction` (lines 82-124) with its control flow
recorded; `glc_run_value` shows that the value is `glc_value`. -/
def glc_run (iVal g_raw : Int) : GlcRun :=
  let maxv : Int := 255
  let mid : Int := 127
  let midp : Int := 128
  let g_raw := if g_raw < 0 then 0 else if g_raw > maxv then maxv else g_raw
  let clamp := fun (c : Int) => if c < 0 then 0 else if c > maxv then maxv else c
  if g_raw ≠ 0 then
    let c := iVal
    if g_raw < mid then
      let floored := decide (g_raw < 1)
      let g := if g_raw < 1 then 1 else g_raw
      if c > g then
        let denom := maxv - g
        if denom > 0 then
          ⟨clamp (mid + Int.tdiv ((c - g) * midp) denom), .shadowStretch, some denom, false, floored⟩
        else ⟨clamp mid, .shadowStretch, none, true, floored⟩
      else ⟨clamp (Int.tdiv (c * mid) g), .shadowCompress, some g, false, floored⟩
    else if g_raw > mid then
      let floored := decide (g_raw < 1)
      let g := if g_raw < 1 then 1 else g_raw
      if c > g then
        let denom := maxv - g
        if denom > 0 then
          ⟨clamp (mid + Int.tdiv ((c - g) * mid) denom), .highlightCompress, some denom, false, floored⟩
        else ⟨clamp maxv, .highlightCompress, none, true, floored⟩
      else ⟨clamp (Int.tdiv (c * midp) g), .highlightStretch, some g, false, floored⟩
    else ⟨clamp c, .midpoint, none, false, false⟩
  else ⟨iVal, .skip, none, false, false⟩

/-- The divisor of the integer division of one BLC/SLC channel block
(lines 47, 55, 63). -/
def blc_slc_divisor (blc slc blc_offset slc_offset : Int) : Int :=
  let blcX_offset := wrapInt (blc + blc_offset)
  let slcX_offset := wrapInt (slc + slc_offset)
  max_one (wrapInt (slcX_offset - blcX_offset))

/-- The divisors of the integer divisions and remainders that one iteration of
the loop of `apply_blc_slc_correction` executes, in execution order: `width` for
`i / width` and for `i % width` (lines 38-39), then the divisors of the blue,
green and red channel blocks (lines 47, 55, 63), for the map entries of the
pixel. -/
def blc_slc_iteration_divisors (width : Int) (blc_r blc_g blc_b slc_r slc_g slc_b : Int)
    (blc_offset slc_offset : Int) : List Int :=
  [width, width, blc_slc_divisor blc_b slc_b blc_offset slc_offset,
    blc_slc_divisor blc_g slc_g blc_offset slc_offset,
    blc_slc_divisor blc_r slc_r blc_offset slc_offset]

/-! ## Reference definitions for the Dark GLC remaps (§4.4) -/

/-- The remap of §4.4 for `dg < quarter`: the shadow stretch
`quarter + (c - dg) / ((half - dg) / quarter)` when `c > dg`, the scaling
`c * (quarter / dg)` otherwise, in `float` arithmetic, truncated. -/
def dark_low_remap (c dg : Int) : Int :=
  if c > dg then
    64 + F32.toInt (F32.div (F32.ofInt (c - dg)) (F32.div (F32.ofInt (128 - dg)) (F32.ofInt 64)))
  else F32.toInt (F32.mul (F32.ofInt c) (F32.div (F32.ofInt 64) (F32.ofInt dg)))

/-- The remapped value `r` of §4.4 for `quarter < dg < half`:
`quarter + (a - dg) * (quarter / (half - dg))` when `a > dg`,
`a / (dg / quarter)` otherwise, in `float` arithmetic, truncated. -/
def dark_mid_remap (a dg : Int) : Int :=
  if a > dg then
    64 + F32.toInt (F32.mul (F32.ofInt (a - dg)) (F32.div (F32.ofInt 64) (F32.ofInt (128 - dg))))
  else F32.toInt (F32.div (F32.ofInt a) (F32.div (F32.ofInt dg) (F32.ofInt 64)))

/-- Well-formed input of a plane stage (STEP 2 or STEP 3): the pixel count
`width * height` is not negative, the byte count `3 * width * height` is an
`int` value, the frame has three bytes per pixel and each of the three maps has
one entry per pixel. -/
structure PlaneStageInput (frame : List Byte) (width height : Int)
    (map_r map_g map_b : List Int) : Prop where
  dims : 0 ≤ width * height
  bytes_fit : 3 * (width * height) ≤ 2147483647
  frame_len : frame.length = 3 * (width * height).toNat
  map_r_len : map_r.length = (width * height).toNat
  map_g_len : map_g.length = (width * height).toNat
  map_b_len : map_b.length = (width * height).toNat

/-! # Theorems -/

/-! ## Generic facts about loops and buffers -/


/-- A loop whose `i`-th iteration rewrites the block `[c * i, c * (i + 1))` of
the buffer cell by cell, each cell from its own old content, computes the
cell-wise image of the blocks it has visited and leaves the rest alone. -/
theorem forLoop_pointwise {α : Type} (c : Nat) (F : Nat → α → α)
    (body : Nat → List α → Option (List α)) (N : Nat)
    (hbody : ∀ i s, i < N → c * (i + 1) ≤ s.length →
      ∃ s', body i s = some s' ∧ s'.length = s.length ∧
        ∀ j, s'[j]? = if c * i ≤ j ∧ j < c * (i + 1) then (s[j]?).map (F j) else s[j]?) :
    ∀ k i s, i + k ≤ N → c * (i + k) ≤ s.length →
      ∃ out, forLoop body k i s = some out ∧ out.length = s.length ∧
        ∀ j, out[j]? = if c * i ≤ j ∧ j < c * (i + k) then (s[j]?).map (F j) else s[j]? := by
  intro k
  induction k with
  | zero =>
    intro i s _ _
    refine ⟨s, rfl, rfl, ?_⟩
    intro j
    have : ¬ (c * i ≤ j ∧ j < c * (i + 0)) := by
      simp only [Nat.add_zero]; omega
    rw [if_neg this]
  | succ k ih =>
    intro i s hN hlen
    have hlen1 : c * (i + 1) ≤ s.length := by
      have : c * (i + 1) ≤ c * (i + (k + 1)) := Nat.mul_le_mul_left c (by omega)
      omega
    obtain ⟨s', hs', hl', hget'⟩ := hbody i s (by omega) hlen1
    have hlen2 : c * (i + 1 + k) ≤ s'.length := by
      rw [hl']; have : i + 1 + k = i + (k + 1) := by omega
      rw [this]; exact hlen
    obtain ⟨out, hout, hlo, hgeto⟩ := ih (i + 1) s' (by omega) hlen2
    refine ⟨out, ?_, by rw [hlo, hl'], ?_⟩
    · simp only [forLoop, hs', hout]
    · intro j
      rw [hgeto j, hget' j]
      have e1 : c * (i + 1) = c * i + c := by ring
      have e2 : c * (i + 1 + k) = c * i + c + c * k := by ring
      have e3 : c * (i + (k + 1)) = c * i + c + c * k := by ring
      rw [e1, e2, e3]
      by_cases h1 : c * i ≤ j ∧ j < c * i + c
      · have h2 : ¬ (c * i + c ≤ j ∧ j < c * i + c + c * k) := by omega
        have h3 : c * i ≤ j ∧ j < c * i + c + c * k := by omega
        rw [if_pos h1, if_neg h2, if_pos h3]
      · by_cases h2 : c * i + c ≤ j ∧ j < c * i + c + c * k
        · have h3 : c * i ≤ j ∧ j < c * i + c + c * k := by omega
          rw [if_neg h1, if_pos h2, if_pos h3]
        · have h3 : ¬ (c * i ≤ j ∧ j < c * i + c + c * k) := by omega
          rw [if_neg h1, if_neg h2, if_neg h3]


theorem glc_body_eq : glc_body = planeBody glc_value := rfl

theorem dark_glc_body_eq : dark_glc_body = planeBody dark_glc_value := rfl

theorem planeBody_step (f : Int → Int → Int) (m : List Int) (i : Nat) (s : List Byte)
    (hi : i < m.length) (hs : 1 * (i + 1) ≤ s.length) :
    ∃ s', planeBody f (some m) i s = some s' ∧ s'.length = s.length ∧
      ∀ j, s'[j]? = if 1 * i ≤ j ∧ j < 1 * (i + 1)
        then (s[j]?).map (fun c => toByte (f (c.val : Int) (m.getD j 0))) else s[j]? := by
  have hi' : i < s.length := by omega
  refine ⟨s.set i (toByte (f ((s[i]).val : Int) m[i])), ?_, List.length_set _ _ _, ?_⟩
  · simp [planeBody, loadMap, List.getElem?_eq_getElem hi', List.getElem?_eq_getElem hi,
      store, hi']
  · intro j
    rw [List.getElem?_set]
    by_cases hij : i = j
    · subst hij
      have hc : 1 * i ≤ i ∧ i < 1 * (i + 1) := by omega
      rw [if_pos rfl, if_pos hi', if_pos hc, List.getElem?_eq_getElem hi']
      simp [List.getD_eq_getElem?_getD, List.getElem?_eq_getElem hi]
    · have hc : ¬ (1 * i ≤ j ∧ j < 1 * (i + 1)) := by omega
      rw [if_neg hij, if_neg hc]

/-- Effect of a plane kernel loop on a plane: the first `n` cells are rewritten
cell by cell from the cell and the map entry of the same index. -/
theorem planeLoop_spec (f : Int → Int → Int) (m : List Int) (n : Nat) (ch : List Byte)
    (hch : n ≤ ch.length) (hm : n ≤ m.length) :
    ∃ out, forLoop (planeBody f (some m)) n 0 ch = some out ∧ out.length = ch.length ∧
      (∀ i c g, i < n → ch[i]? = some c → m[i]? = some g →
        out[i]? = some (toByte (f (c.val : Int) g))) ∧
      (∀ i, n ≤ i → out[i]? = ch[i]?) := by
  obtain ⟨out, ho, hl, hg⟩ := forLoop_pointwise 1
    (fun j c => toByte (f (c.val : Int) (m.getD j 0))) (planeBody f (some m)) n
    (fun i s hi hs => planeBody_step f m i s (by omega) hs) n 0 ch (by omega) (by omega)
  refine ⟨out, ho, hl, ?_, ?_⟩
  · intro i c g hi hc hgm
    have hc' : 1 * 0 ≤ i ∧ i < 1 * (0 + n) := by omega
    rw [hg i, if_pos hc', hc]
    simp [List.getD_eq_getElem?_getD, hgm]
  · intro i hi
    have hc' : ¬ (1 * 0 ≤ i ∧ i < 1 * (0 + n)) := by omega
    rw [hg i, if_neg hc']


theorem wrapInt_of_isInt32 {x : Int} (h : isInt32 x) : wrapInt x = x := by
  unfold isInt32 at h
  unfold wrapInt
  omega

theorem loadAt_natCast {α : Type} (buf : List α) (n : Nat) :
    loadAt buf (n : Int) = buf[n]? := by
  unfold loadAt
  rw [if_neg (by omega), Int.toNat_ofNat]

theorem storeAt_natCast {α : Type} (buf : List α) (n : Nat) (v : α) :
    storeAt buf (n : Int) v = store buf n v := by
  unfold storeAt
  rw [if_neg (by omega), Int.toNat_ofNat]

/-- The byte indices of pixel `i` are exact when the last of them is an `int`
value. -/
theorem pixel_index_exact (i : Nat) (h : i * 3 + 2 ≤ 2147483647) :
    wrapInt ((i : Int) * 3) = ((i * 3 : Nat) : Int) ∧
    wrapInt (((i * 3 : Nat) : Int) + 1) = ((i * 3 + 1 : Nat) : Int) ∧
    wrapInt (((i * 3 : Nat) : Int) + 2) = ((i * 3 + 2 : Nat) : Int) := by
  unfold wrapInt
  push_cast
  omega

theorem blc_slc_channel_spec (blc slc : List Int) (bo so : Int) (i idx : Nat)
    (frame : List Byte) (hidx : idx < frame.length) (hb : i < blc.length)
    (hs : i < slc.length) :
    ∃ s', blc_slc_channel (some blc) (some slc) bo so i (idx : Int) frame = some s' ∧
      s'.length = frame.length ∧
      ∀ j, s'[j]? = if idx = j
        then (frame[j]?).map
          (fun v => clamp_byte (blc_slc_corr (v.val : Int) (blc.getD i 0) (slc.getD i 0) bo so))
        else frame[j]? := by
  refine ⟨frame.set idx (clamp_byte (blc_slc_corr ((frame[idx]).val : Int) blc[i] slc[i] bo so)),
    ?_, List.length_set _ _ _, ?_⟩
  · simp [blc_slc_channel, loadAt_natCast, storeAt_natCast, loadMap,
      List.getElem?_eq_getElem hidx, List.getElem?_eq_getElem hb,
      List.getElem?_eq_getElem hs, store, hidx]
  · intro j
    rw [List.getElem?_set]
    by_cases hij : idx = j
    · subst hij
      rw [if_pos rfl, if_pos hidx, if_pos rfl, List.getElem?_eq_getElem hidx]
      simp [List.getD_eq_getElem?_getD, List.getElem?_eq_getElem hb, List.getElem?_eq_getElem hs]
    · rw [if_neg hij, if_neg hij]

theorem blc_slc_body_step (width : Int) (blc_r blc_g blc_b slc_r slc_g slc_b : List Int)
    (bo so : Int) (i : Nat) (s : List Byte) (hw : width ≠ 0)
    (hfit : i * 3 + 2 ≤ 2147483647)
    (hbr : i < blc_r.length) (hbg : i < blc_g.length) (hbb : i < blc_b.length)
    (hsr : i < slc_r.length) (hsg : i < slc_g.length) (hsb : i < slc_b.length)
    (hs : 3 * (i + 1) ≤ s.length) :
    ∃ s', blc_slc_body width (some blc_r) (some blc_g) (some blc_b)
        (some slc_r) (some slc_g) (some slc_b) bo so i s = some s' ∧
      s'.length = s.length ∧
      ∀ j, s'[j]? = if 3 * i ≤ j ∧ j < 3 * (i + 1)
        then (s[j]?).map (fun v => clamp_byte (blc_slc_corr (v.val : Int)
          ((selBGR (j % 3) blc_b blc_g blc_r).getD (j / 3) 0)
          ((selBGR (j % 3) slc_b slc_g slc_r).getD (j / 3) 0) bo so))
        else s[j]? := by
  obtain ⟨e0, e1, e2⟩ := pixel_index_exact i hfit
  obtain ⟨s1, h1, l1, g1⟩ := blc_slc_channel_spec blc_b slc_b bo so i (i * 3) s
    (by omega) hbb hsb
  obtain ⟨s2, h2, l2, g2⟩ := blc_slc_channel_spec blc_g slc_g bo so i (i * 3 + 1) s1
    (by omega) hbg hsg
  obtain ⟨s3, h3, l3, g3⟩ := blc_slc_channel_spec blc_r slc_r bo so i (i * 3 + 2) s2
    (by omega) hbr hsr
  refine ⟨s3, ?_, by omega, ?_⟩
  · simp only [blc_slc_body, intDiv, intMod, if_neg hw, Option.some_bind, e0, e1, e2, h1, h2, h3]
  · intro j
    rw [g3 j, g2 j, g1 j]
    by_cases c0 : i * 3 = j
    · have hc : 3 * i ≤ j ∧ j < 3 * (i + 1) := by omega
      have m0 : j % 3 = 0 := by omega
      have d0 : j / 3 = i := by omega
      rw [if_neg (by omega), if_neg (by omega), if_pos c0, if_pos hc, m0, d0]
      simp [selBGR]
    · by_cases c1 : i * 3 + 1 = j
      · have hc : 3 * i ≤ j ∧ j < 3 * (i + 1) := by omega
        have m0 : j % 3 = 1 := by omega
        have d0 : j / 3 = i := by omega
        rw [if_neg (by omega), if_pos c1, if_neg c0, if_pos hc, m0, d0]
        simp [selBGR]
      · by_cases c2 : i * 3 + 2 = j
        · have hc : 3 * i ≤ j ∧ j < 3 * (i + 1) := by omega
          have m0 : j % 3 = 2 := by omega
          have d0 : j / 3 = i := by omega
          rw [if_pos c2, if_neg c1, if_neg c0, if_pos hc, m0, d0]
          simp [selBGR]
        · have hc : ¬ (3 * i ≤ j ∧ j < 3 * (i + 1)) := by omega
          rw [if_neg c2, if_neg c1, if_neg c0, if_neg hc]

/-- Effect of the BLC/SLC kernel on a well-formed input: it returns, and the
byte of channel `k` of pixel `i` is `clamp_byte` of the `corr` value computed
from the old byte and entry `i` of the maps of channel `k`. -/
theorem blc_slc_kernel_pointwise (frame : List Byte) (width height : Int)
    (blc_r blc_g blc_b slc_r slc_g slc_b : List Int) (bo so : Int)
    (hwf : BlcSlcInput frame width height blc_r blc_g blc_b slc_r slc_g slc_b) :
    ∃ out, apply_blc_slc_correction frame width height (some blc_r) (some blc_g) (some blc_b)
        (some slc_r) (some slc_g) (some slc_b) bo so = some out ∧
      out.length = frame.length ∧
      ∀ i k raw blc slc, i < (width * height).toNat → k < 3 →
        frame[3 * i + k]? = some raw →
        (selBGR k blc_b blc_g blc_r)[i]? = some blc →
        (selBGR k slc_b slc_g slc_r)[i]? = some slc →
        out[3 * i + k]? = some (clamp_byte (blc_slc_corr (raw.val : Int) blc slc bo so)) := by
  obtain ⟨hpf, hbf, hf, h1, h2, h3, h4, h5, h6⟩ := hwf
  have hwrap : wrapInt (width * height) = width * height := wrapInt_of_isInt32 hpf
  have hwidth : 0 < (width * height).toNat → width ≠ 0 := by
    intro h hw
    rw [hw, zero_mul] at h
    simp at h
  unfold apply_blc_slc_correction
  rw [hwrap]
  generalize width * height = N at *
  obtain ⟨out, ho, hl, hg⟩ := forLoop_pointwise 3
    (fun j v => clamp_byte (blc_slc_corr (v.val : Int)
          ((selBGR (j % 3) blc_b blc_g blc_r).getD (j / 3) 0)
          ((selBGR (j % 3) slc_b slc_g slc_r).getD (j / 3) 0) bo so))
    (blc_slc_body width (some blc_r) (some blc_g) (some blc_b)
        (some slc_r) (some slc_g) (some slc_b) bo so) N.toNat
    (fun i s hi hs => blc_slc_body_step width blc_r blc_g blc_b slc_r slc_g slc_b bo so i s
      (hwidth (by omega)) (by omega)
      (by omega) (by omega) (by omega) (by omega) (by omega) (by omega) hs)
    N.toNat 0 frame (by omega) (by omega)
  refine ⟨out, ho, hl, ?_⟩
  intro i k raw blc slc hi hk hraw hblc hslc
  have hc : 3 * 0 ≤ 3 * i + k ∧ 3 * i + k < 3 * (0 + N.toNat) := by omega
  have m0 : (3 * i + k) % 3 = k := by omega
  have d0 : (3 * i + k) / 3 = i := by omega
  rw [hg (3 * i + k), if_pos hc, hraw, m0, d0]
  simp [List.getD_eq_getElem?_getD, hblc, hslc]


/-- The pixel count is a 32-bit product: `641 * 6700417 = 2 ^ 32 + 1` wraps to
`1`, so the pipeline corrects exactly one pixel; `65536 * 65536 = 2 ^ 32` wraps
to `0`, so the kernel returns whatever frame it is given unchanged; with
`width = height = -1` the count is `1`. -/
theorem pixel_count_wraps :
    apply_corrections [10, 10, 10] 641 6700417 (some [5]) (some [5]) (some [5])
        (some [200]) (some [200]) (some [200]) none none none none none none
        true false false 0 0 = some [6, 6, 6] ∧
    (∀ (frame : List Byte) (blc_r blc_g blc_b slc_r slc_g slc_b : Option (List Int))
      (blc_offset slc_offset : Int),
      apply_blc_slc_correction frame 65536 65536 blc_r blc_g blc_b slc_r slc_g slc_b
        blc_offset slc_offset = some frame) ∧
    apply_blc_slc_correction [10, 10, 10] (-1) (-1) (some [5]) (some [5]) (some [5])
        (some [200]) (some [200]) (some [200]) 0 0 = some [6, 6, 6] := by
  refine ⟨by decide, ?_, by decide⟩
  intro frame blc_r blc_g blc_b slc_r slc_g slc_b bo so
  have h : (wrapInt (65536 * 65536)).toNat = 0 := by decide
  show forLoop (blc_slc_body 65536 blc_r blc_g blc_b slc_r slc_g slc_b bo so)
    (wrapInt (65536 * 65536)).toNat 0 frame = some frame
  rw [h]
  rfl

/-! ## Arithmetic of the primitives -/

theorem toByte_val_of_range {v : Int} (h0 : 0 ≤ v) (h1 : v ≤ 255) :
    ((toByte v).val : Int) = v := by
  simp only [toByte, Fin.ofNat, Fin.val_mk]
  omega

theorem toByte_val_self (b : Byte) : toByte (b.val : Int) = b := by
  apply Fin.ext
  have h := b.isLt
  simp only [toByte, Fin.ofNat]
  omega

theorem clampByte_range (v : Int) : 0 ≤ clampByte v ∧ clampByte v ≤ 255 := by
  unfold clampByte
  split_ifs <;> omega

theorem clamp_byte_val (v : Int) : ((clamp_byte v).val : Int) = clampByte v := by
  unfold clamp_byte clampByte
  split_ifs with h1 h2
  · rfl
  · rfl
  · exact toByte_val_of_range (by omega) (by omega)

theorem max_one_eq_maxOne (v : Int) : max_one v = maxOne v := rfl

theorem blc_slc_corr_eq_of_no_overflow {raw blc slc bo so : Int}
    (h : blc_slc_no_overflow raw blc slc bo so) :
    blc_slc_corr raw blc slc bo so =
      Int.tdiv ((raw - (blc + bo)) * 255) (maxOne ((slc + so) - (blc + bo))) := by
  obtain ⟨h1, h2, h3, h4, h5⟩ := h
  simp only [blc_slc_corr, wrapInt_of_isInt32 h1, wrapInt_of_isInt32 h2, wrapInt_of_isInt32 h3,
    wrapInt_of_isInt32 h4, wrapInt_of_isInt32 h5, max_one_eq_maxOne]

/-! ## C1: the BLC/SLC kernel against its reference formula -/

/-- C1. On a well-formed input (pixel count `width * height` and byte count
`3 * width * height` within the `int` range, frame and maps of matching length)
the BLC/SLC kernel returns a frame of the same length, and for every pixel `i < width * height` and channel `k ∈ {0, 1, 2}`
whose five 32-bit intermediates do not overflow, the byte at `3 * i + k` of the
result equals the reference formula
`clampByte(((raw - (blc + blc_offset)) * 255) / maxOne((slc + slc_offset) - (blc + blc_offset)))`
(division truncating toward zero) of the input byte `raw` at `3 * i + k` and
entry `i` of the b, g, r maps for `k = 0, 1, 2`. -/
theorem blc_slc_kernel_eq_reference (frame : List Byte) (width height : Int)
    (blc_r blc_g blc_b slc_r slc_g slc_b : List Int) (blc_offset slc_offset : Int)
    (hwf : BlcSlcInput frame width height blc_r blc_g blc_b slc_r slc_g slc_b) :
    ∃ out, apply_blc_slc_correction frame width height (some blc_r) (some blc_g) (some blc_b)
        (some slc_r) (some slc_g) (some slc_b) blc_offset slc_offset = some out ∧
      out.length = frame.length ∧
      ∀ i k raw blc slc, i < (width * height).toNat → k < 3 →
        frame[3 * i + k]? = some raw →
        (selBGR k blc_b blc_g blc_r)[i]? = some blc →
        (selBGR k slc_b slc_g slc_r)[i]? = some slc →
        blc_slc_no_overflow (raw.val : Int) blc slc blc_offset slc_offset →
        ∃ b, out[3 * i + k]? = some b ∧
          (b.val : Int) = blc_slc_reference (raw.val : Int) blc slc blc_offset slc_offset := by
  obtain ⟨out, ho, hl, hp⟩ := blc_slc_kernel_pointwise frame width height
    blc_r blc_g blc_b slc_r slc_g slc_b blc_offset slc_offset hwf
  refine ⟨out, ho, hl, ?_⟩
  intro i k raw blc slc hi hk hraw hblc hslc hno
  refine ⟨_, hp i k raw blc slc hi hk hraw hblc hslc, ?_⟩
  rw [clamp_byte_val, blc_slc_corr_eq_of_no_overflow hno]
  rfl

/-- Witness of C1: the 2x1 frame of the end-to-end scenario. -/
theorem blc_slc_kernel_eq_reference_witness :
    BlcSlcInput [10, 10, 10, 250, 250, 250] 2 1 [5, 5] [5, 5] [5, 5] [200, 200] [200, 200]
      [200, 200] ∧
    (blc_slc_no_overflow 10 5 200 0 0 ∧ blc_slc_no_overflow 250 5 200 0 0) ∧
    apply_blc_slc_correction [10, 10, 10, 250, 250, 250] 2 1 (some [5, 5]) (some [5, 5])
        (some [5, 5]) (some [200, 200]) (some [200, 200]) (some [200, 200]) 0 0 =
      some [6, 6, 6, 255, 255, 255] ∧
    ∃ out, apply_blc_slc_correction [10, 10, 10, 250, 250, 250] 2 1 (some [5, 5]) (some [5, 5])
        (some [5, 5]) (some [200, 200]) (some [200, 200]) (some [200, 200]) 0 0 = some out ∧
      out.length = [(10 : Byte), 10, 10, 250, 250, 250].length ∧
      ∀ i k raw blc slc, i < ((2 : Int) * 1).toNat → k < 3 →
        [(10 : Byte), 10, 10, 250, 250, 250][3 * i + k]? = some raw →
        (selBGR k [(5 : Int), 5] [5, 5] [5, 5])[i]? = some blc →
        (selBGR k [(200 : Int), 200] [200, 200] [200, 200])[i]? = some slc →
        blc_slc_no_overflow (raw.val : Int) blc slc 0 0 →
        ∃ b, out[3 * i + k]? = some b ∧
          (b.val : Int) = blc_slc_reference (raw.val : Int) blc slc 0 0 :=
  have hwf : BlcSlcInput [10, 10, 10, 250, 250, 250] 2 1 [5, 5] [5, 5] [5, 5] [200, 200]
      [200, 200] [200, 200] :=
    ⟨by decide, by decide, by decide, by decide, by decide, by decide, by decide, by decide,
      by decide⟩
  ⟨hwf, by decide, by decide, blc_slc_kernel_eq_reference _ _ _ _ _ _ _ _ _ _ _ hwf⟩

/-! ## C2, C3: the orchestrator as a gated composition -/

/-- C2. `apply_corrections` is the composition, in the fixed order BLC/SLC, GLC,
Dark GLC, of three gated stages: the BLC/SLC kernel runs iff `enable_blc_slc`
holds and `blc_r` and `slc_r` are present, the GLC stage iff `enable_glc` holds
and `glc_r` is present, the Dark GLC stage iff `enable_dark_glc` holds and
`dark_glc_r` is present; a stage that does not run is the identity. In
particular a flag whose red-channel map is absent has the effect of the flag
being false. -/
theorem apply_corrections_eq_gated_composition (frame : List Byte) (width height : Int)
    (blc_r blc_g blc_b slc_r slc_g slc_b : Option (List Int))
    (glc_r glc_g glc_b : Option (List Int))
    (dark_glc_r dark_glc_g dark_glc_b : Option (List Int))
    (enable_blc_slc enable_glc enable_dark_glc : Bool)
    (blc_offset slc_offset : Int) :
    apply_corrections frame width height blc_r blc_g blc_b slc_r slc_g slc_b
        glc_r glc_g glc_b dark_glc_r dark_glc_g dark_glc_b
        enable_blc_slc enable_glc enable_dark_glc blc_offset slc_offset =
      ((gatedStage (enable_blc_slc = true ∧ blc_r.isSome = true ∧ slc_r.isSome = true)
          (fun f => apply_blc_slc_correction f width height blc_r blc_g blc_b slc_r slc_g slc_b
            blc_offset slc_offset) frame).bind
        (gatedStage (enable_glc = true ∧ glc_r.isSome = true)
          (fun f => plane_step apply_glc_correction f (wrapInt (width * height)) glc_r glc_g glc_b))).bind
        (gatedStage (enable_dark_glc = true ∧ dark_glc_r.isSome = true)
          (fun f => plane_step apply_dark_glc_correction f (wrapInt (width * height))
            dark_glc_r dark_glc_g dark_glc_b)) ∧
    ((blc_r = none ∨ slc_r = none) →
      apply_corrections frame width height blc_r blc_g blc_b slc_r slc_g slc_b
        glc_r glc_g glc_b dark_glc_r dark_glc_g dark_glc_b
        true enable_glc enable_dark_glc blc_offset slc_offset =
      apply_corrections frame width height blc_r blc_g blc_b slc_r slc_g slc_b
        glc_r glc_g glc_b dark_glc_r dark_glc_g dark_glc_b
        false enable_glc enable_dark_glc blc_offset slc_offset) ∧
    (glc_r = none →
      apply_corrections frame width height blc_r blc_g blc_b slc_r slc_g slc_b
        glc_r glc_g glc_b dark_glc_r dark_glc_g dark_glc_b
        enable_blc_slc true enable_dark_glc blc_offset slc_offset =
      apply_corrections frame width height blc_r blc_g blc_b slc_r slc_g slc_b
        glc_r glc_g glc_b dark_glc_r dark_glc_g dark_glc_b
        enable_blc_slc false enable_dark_glc blc_offset slc_offset) ∧
    (dark_glc_r = none →
      apply_corrections frame width height blc_r blc_g blc_b slc_r slc_g slc_b
        glc_r glc_g glc_b dark_glc_r dark_glc_g dark_glc_b
        enable_blc_slc enable_glc true blc_offset slc_offset =
      apply_corrections frame width height blc_r blc_g blc_b slc_r slc_g slc_b
        glc_r glc_g glc_b dark_glc_r dark_glc_g dark_glc_b
        enable_blc_slc enable_glc false blc_offset slc_offset) := by
  refine ⟨?_, ?_, ?_, ?_⟩
  · unfold apply_corrections gatedStage
    cases enable_blc_slc <;> cases enable_glc <;> cases enable_dark_glc <;>
      cases blc_r <;> cases slc_r <;> cases glc_r <;> cases dark_glc_r <;>
      simp <;>
      (first
        | rfl
        | (cases apply_blc_slc_correction frame width height _ blc_g blc_b
              _ slc_g slc_b blc_offset slc_offset <;> simp <;>
            first
              | rfl
              | (rename_i f1
                 cases plane_step apply_glc_correction f1 (wrapInt (width * height)) _ glc_g glc_b <;>
                   simp))
        | (cases plane_step apply_glc_correction frame (wrapInt (width * height)) _ glc_g glc_b <;> simp))
  · intro h
    unfold apply_corrections
    rcases h with h | h <;> subst h <;> simp
  · intro h
    subst h
    unfold apply_corrections
    simp
  · intro h
    subst h
    unfold apply_corrections
    simp

/-- C3. With all three enable flags false, `apply_corrections` returns the input
frame byte for byte, whatever the dimensions, the maps (present or absent) and
the offsets. -/
theorem apply_corrections_all_disabled (frame : List Byte) (width height : Int)
    (blc_r blc_g blc_b slc_r slc_g slc_b : Option (List Int))
    (glc_r glc_g glc_b : Option (List Int))
    (dark_glc_r dark_glc_g dark_glc_b : Option (List Int))
    (blc_offset slc_offset : Int) :
    apply_corrections frame width height blc_r blc_g blc_b slc_r slc_g slc_b
        glc_r glc_g glc_b dark_glc_r dark_glc_g dark_glc_b
        false false false blc_offset slc_offset = some frame := by
  simp [apply_corrections]

/-! ## C4, C5: the GLC kernel -/

theorem glc_value_range_int (x g : Int) (h0 : 0 ≤ x) (h1 : x ≤ 255) :
    0 ≤ glc_value x g ∧ glc_value x g ≤ 255 := by
  unfold glc_value
  dsimp only
  generalize hG : (if g < 0 then (0 : Int) else if g > 255 then 255 else g) = G
  by_cases hG0 : G = 0
  · rw [if_neg (by simpa using hG0)]
    omega
  · rw [if_pos hG0]
    split_ifs <;> omega

theorem glc_value_eq_reference_int (x m : Int) (h0 : 0 ≤ x) (h1 : x ≤ 255) :
    glc_value x m = glc_reference x m := by
  unfold glc_value glc_reference clampByte
  dsimp only
  have hG : (if m < 0 then (0 : Int) else if m > 255 then 255 else m) = max 0 (min m 255) := by
    simp only [max_def, min_def]
    split_ifs <;> omega
  rw [hG]
  have hGr : 0 ≤ max 0 (min m 255) ∧ max 0 (min m 255) ≤ 255 := by
    simp only [max_def, min_def]
    split_ifs <;> omega
  generalize max 0 (min m 255) = G at hGr
  by_cases hG0 : G = 0
  · rw [if_neg (by simpa using hG0), if_pos (Or.inl hG0)]
  · rw [if_pos hG0]
    by_cases h127 : G = 127
    · subst h127
      simp only [lt_irrefl, gt_iff_lt, if_false, or_true, if_true]
      split_ifs <;> omega
    · rw [if_neg (by omega : ¬ (G = 0 ∨ G = 127))]
      have hg1 : (if G < 1 then (1 : Int) else G) = G := if_neg (by omega)
      rw [hg1]
      by_cases hlt : G < 127
      · rw [if_pos hlt, if_pos hlt]
        by_cases hx : x > G
        · rw [if_pos hx, if_pos hx, if_pos (by omega : 255 - G > 0)]
        · rw [if_neg hx, if_neg hx]
      · rw [if_neg hlt, if_neg hlt, if_pos (by omega : G > 127)]
        by_cases hx : x > G
        · rw [if_pos hx, if_pos hx, if_pos (by omega : 255 - G > 0)]
        · rw [if_neg hx, if_neg hx]

theorem byte_range (c : Byte) : (0 : Int) ≤ (c.val : Int) ∧ (c.val : Int) ≤ 255 := by
  have hc := c.isLt
  omega

theorem glc_value_range (c : Byte) (g : Int) :
    0 ≤ glc_value (c.val : Int) g ∧ glc_value (c.val : Int) g ≤ 255 :=
  glc_value_range_int _ g (byte_range c).1 (byte_range c).2

theorem glc_value_eq_reference (c : Byte) (m : Int) :
    glc_value (c.val : Int) m = glc_reference (c.val : Int) m :=
  glc_value_eq_reference_int _ m (byte_range c).1 (byte_range c).2

/-- Effect of the GLC kernel on a well-formed plane. -/
theorem glc_kernel_pointwise (channel : List Byte) (total_pixels : Int) (glc_map : List Int)
    (hwf : PlaneInput channel total_pixels glc_map) :
    ∃ out, apply_glc_correction channel total_pixels (some glc_map) = some out ∧
      out.length = channel.length ∧
      ∀ i c m, i < total_pixels.toNat → channel[i]? = some c → glc_map[i]? = some m →
        out[i]? = some (toByte (glc_value (c.val : Int) m)) := by
  obtain ⟨out, ho, hl, hp, _⟩ := planeLoop_spec glc_value glc_map total_pixels.toNat channel
    hwf.channel_len hwf.map_len
  exact ⟨out, by rw [apply_glc_correction, glc_body_eq]; exact ho, hl, hp⟩

/-- C4. On a well-formed plane `apply_glc_correction` returns, and its output at
every pixel `i < total_pixels` is the two-branch reference value of the sample
`c` and the map value `m` at that pixel: with `g` the value `m` clamped to
`[0, 255]`, it is `c` if `g = 0` or `g = 127`; for `0 < g < 127` it is
`clamp(127 + ((c - g) * 128) / (255 - g))` when `c > g` and `clamp((c * 127) / g)`
otherwise; for `g > 127` it is `clamp(127 + ((c - g) * 127) / (255 - g))` when
`c > g` and `clamp((c * 128) / g)` otherwise. -/
theorem glc_kernel_eq_reference (channel : List Byte) (total_pixels : Int)
    (glc_map : List Int) (hwf : PlaneInput channel total_pixels glc_map) :
    ∃ out, apply_glc_correction channel total_pixels (some glc_map) = some out ∧
      out.length = channel.length ∧
      ∀ i c m, i < total_pixels.toNat → channel[i]? = some c → glc_map[i]? = some m →
        ∃ b, out[i]? = some b ∧ (b.val : Int) = glc_reference (c.val : Int) m := by
  obtain ⟨out, ho, hl, hp⟩ := glc_kernel_pointwise channel total_pixels glc_map hwf
  refine ⟨out, ho, hl, ?_⟩
  intro i c m hi hc hm
  refine ⟨_, hp i c m hi hc hm, ?_⟩
  rw [toByte_val_of_range (glc_value_range c m).1 (glc_value_range c m).2]
  exact glc_value_eq_reference c m

/-- Witness of C4: a plane of six samples against map values in every branch. -/
theorem glc_kernel_eq_reference_witness :
    PlaneInput [0, 50, 100, 150, 200, 255] 6 [0, 127, 60, 60, 200, 200] ∧
    apply_glc_correction [0, 50, 100, 150, 200, 255] 6 (some [0, 127, 60, 60, 200, 200]) =
      some [0, 50, 153, 186, 128, 254] ∧
    ∃ out, apply_glc_correction [0, 50, 100, 150, 200, 255] 6
        (some [0, 127, 60, 60, 200, 200]) = some out ∧
      out.length = [(0 : Byte), 50, 100, 150, 200, 255].length ∧
      ∀ i c m, i < (6 : Int).toNat → [(0 : Byte), 50, 100, 150, 200, 255][i]? = some c →
        [(0 : Int), 127, 60, 60, 200, 200][i]? = some m →
        ∃ b, out[i]? = some b ∧ (b.val : Int) = glc_reference (c.val : Int) m :=
  have hwf : PlaneInput [0, 50, 100, 150, 200, 255] 6 [0, 127, 60, 60, 200, 200] :=
    ⟨by decide, by decide⟩
  ⟨hwf, by decide, glc_kernel_eq_reference _ _ _ hwf⟩

/-- C5. On a well-formed plane, every pixel whose map value clamped to
`[0, 255]` is `0` (every negative map value included) or exactly `127` keeps its
sample under `apply_glc_correction`. -/
theorem glc_kernel_identity_cases (channel : List Byte) (total_pixels : Int)
    (glc_map : List Int) (hwf : PlaneInput channel total_pixels glc_map) :
    ∃ out, apply_glc_correction channel total_pixels (some glc_map) = some out ∧
      ∀ i c m, i < total_pixels.toNat → channel[i]? = some c → glc_map[i]? = some m →
        (max 0 (min m 255) = 0 ∨ max 0 (min m 255) = 127) → out[i]? = some c := by
  obtain ⟨out, ho, _, hp⟩ := glc_kernel_pointwise channel total_pixels glc_map hwf
  refine ⟨out, ho, ?_⟩
  intro i c m hi hc hm hg
  rw [hp i c m hi hc hm]
  have hv : glc_value (c.val : Int) m = (c.val : Int) := by
    rw [glc_value_eq_reference]
    unfold glc_reference
    simp only [hg, if_true]
  rw [hv, toByte_val_self]

/-- Witness of C5: map values `-3`, `0` and `127` leave their samples alone. -/
theorem glc_kernel_identity_cases_witness :
    PlaneInput [10, 200, 33, 77] 4 [-3, 0, 127, 90] ∧
    apply_glc_correction [10, 200, 33, 77] 4 (some [-3, 0, 127, 90]) =
      some [10, 200, 33, 108] ∧
    ∃ out, apply_glc_correction [10, 200, 33, 77] 4 (some [-3, 0, 127, 90]) = some out ∧
      ∀ i c m, i < (4 : Int).toNat → [(10 : Byte), 200, 33, 77][i]? = some c →
        [(-3 : Int), 0, 127, 90][i]? = some m →
        (max 0 (min m 255) = 0 ∨ max 0 (min m 255) = 127) → out[i]? = some c :=
  have hwf : PlaneInput [10, 200, 33, 77] 4 [-3, 0, 127, 90] := ⟨by decide, by decide⟩
  ⟨hwf, by decide, glc_kernel_identity_cases _ _ _ hwf⟩

/-! ## C6: the end-to-end scenario -/

/-- C6. For the 2x1 frame `[10,10,10, 250,250,250]` with black-level maps
`[5,5]`, saturation-level maps `[200,200]`, offsets `0`, BLC/SLC enabled and
the GLC and Dark GLC stages not applied (flag false or red map absent),
`apply_corrections` returns `[6,6,6, 255,255,255]`, which is the §4.2 formula
evaluated at each pixel and channel. -/
theorem end_to_end_scenario
    (glc_r glc_g glc_b dark_glc_r dark_glc_g dark_glc_b : Option (List Int))
    (enable_glc enable_dark_glc : Bool)
    (h2 : ¬ (enable_glc = true ∧ glc_r ≠ none))
    (h3 : ¬ (enable_dark_glc = true ∧ dark_glc_r ≠ none)) :
    apply_corrections [10, 10, 10, 250, 250, 250] 2 1
        (some [5, 5]) (some [5, 5]) (some [5, 5])
        (some [200, 200]) (some [200, 200]) (some [200, 200])
        glc_r glc_g glc_b dark_glc_r dark_glc_g dark_glc_b
        true enable_glc enable_dark_glc 0 0 = some [6, 6, 6, 255, 255, 255] ∧
    List.map (fun raw => blc_slc_reference raw 5 200 0 0) [10, 10, 10, 250, 250, 250] =
      [6, 6, 6, 255, 255, 255] := by
  constructor
  · unfold apply_corrections
    simp only [if_neg h2, if_neg h3]
    decide
  · decide

/-- Witness of C6: GLC disabled with its maps absent, Dark GLC enabled with its
red map absent. -/
theorem end_to_end_scenario_witness :
    apply_corrections [10, 10, 10, 250, 250, 250] 2 1
        (some [5, 5]) (some [5, 5]) (some [5, 5])
        (some [200, 200]) (some [200, 200]) (some [200, 200])
        none none none none (some [70, 70]) (some [70, 70])
        true false true 0 0 = some [6, 6, 6, 255, 255, 255] ∧
    List.map (fun raw => blc_slc_reference raw 5 200 0 0) [10, 10, 10, 250, 250, 250] =
      [6, 6, 6, 255, 255, 255] :=
  end_to_end_scenario none none none none (some [70, 70]) (some [70, 70]) false true
    (by decide) (by decide)

/-! ## C7: the range invariant -/

theorem clamp_twice_range (B : Int) :
    0 ≤ (if (if B > 255 then 255 else B) < 0 then 0 else (if B > 255 then (255 : Int) else B)) ∧
    (if (if B > 255 then 255 else B) < 0 then 0 else (if B > 255 then (255 : Int) else B)) ≤ 255 := by
  split_ifs <;> omega

theorem dark_glc_value_range_int (x dg : Int) (h0 : 0 ≤ x) (h1 : x ≤ 255) :
    0 ≤ dark_glc_value x dg ∧ dark_glc_value x dg ≤ 255 := by
  unfold dark_glc_value
  dsimp only
  by_cases hdg : dg = 0
  · rw [if_neg (by simpa using hdg)]
    omega
  · rw [if_pos hdg]
    exact clamp_twice_range _

theorem dark_glc_value_range (c : Byte) (dg : Int) :
    0 ≤ dark_glc_value (c.val : Int) dg ∧ dark_glc_value (c.val : Int) dg ≤ 255 :=
  dark_glc_value_range_int _ dg (byte_range c).1 (byte_range c).2

/-- C7. For every sample and all map values and offsets, the `int` each kernel
converts to a byte lies in `[0, 255]`, so the conversion does not wrap: the byte
BLC/SLC stores is the saturated value `clampByte corr`, the bytes GLC and
Dark GLC store have the value of the `int` they were computed as; and every
sample of a frame returned by a kernel or by `apply_corrections` lies in
`[0, 255]`. -/
theorem stored_samples_in_byte_range :
    (∀ (raw : Byte) (blc slc blc_offset slc_offset : Int),
      0 ≤ clampByte (blc_slc_corr (raw.val : Int) blc slc blc_offset slc_offset) ∧
      clampByte (blc_slc_corr (raw.val : Int) blc slc blc_offset slc_offset) ≤ 255 ∧
      ((clamp_byte (blc_slc_corr (raw.val : Int) blc slc blc_offset slc_offset)).val : Int) =
        clampByte (blc_slc_corr (raw.val : Int) blc slc blc_offset slc_offset)) ∧
    (∀ (c : Byte) (g : Int),
      0 ≤ glc_value (c.val : Int) g ∧ glc_value (c.val : Int) g ≤ 255 ∧
      ((toByte (glc_value (c.val : Int) g)).val : Int) = glc_value (c.val : Int) g) ∧
    (∀ (c : Byte) (dg : Int),
      0 ≤ dark_glc_value (c.val : Int) dg ∧ dark_glc_value (c.val : Int) dg ≤ 255 ∧
      ((toByte (dark_glc_value (c.val : Int) dg)).val : Int) = dark_glc_value (c.val : Int) dg) ∧
    (∀ (frame out : List Byte) (width height : Int)
      (blc_r blc_g blc_b slc_r slc_g slc_b : Option (List Int)) (blc_offset slc_offset : Int),
      apply_blc_slc_correction frame width height blc_r blc_g blc_b slc_r slc_g slc_b
        blc_offset slc_offset = some out → ∀ b ∈ out, (0 : Int) ≤ (b.val : Int) ∧ (b.val : Int) ≤ 255) ∧
    (∀ (channel out : List Byte) (total_pixels : Int) (glc_map : Option (List Int)),
      apply_glc_correction channel total_pixels glc_map = some out →
        ∀ b ∈ out, (0 : Int) ≤ (b.val : Int) ∧ (b.val : Int) ≤ 255) ∧
    (∀ (channel out : List Byte) (total_pixels : Int) (dark_glc_map : Option (List Int)),
      apply_dark_glc_correction channel total_pixels dark_glc_map = some out →
        ∀ b ∈ out, (0 : Int) ≤ (b.val : Int) ∧ (b.val : Int) ≤ 255) ∧
    (∀ (frame out : List Byte) (width height : Int)
      (blc_r blc_g blc_b slc_r slc_g slc_b glc_r glc_g glc_b : Option (List Int))
      (dark_glc_r dark_glc_g dark_glc_b : Option (List Int))
      (enable_blc_slc enable_glc enable_dark_glc : Bool) (blc_offset slc_offset : Int),
      apply_corrections frame width height blc_r blc_g blc_b slc_r slc_g slc_b
        glc_r glc_g glc_b dark_glc_r dark_glc_g dark_glc_b
        enable_blc_slc enable_glc enable_dark_glc blc_offset slc_offset = some out →
        ∀ b ∈ out, (0 : Int) ≤ (b.val : Int) ∧ (b.val : Int) ≤ 255) := by
  refine ⟨?_, ?_, ?_, ?_, ?_, ?_, ?_⟩
  · intro raw blc slc bo so
    exact ⟨(clampByte_range _).1, (clampByte_range _).2, clamp_byte_val _⟩
  · intro c g
    have h := glc_value_range c g
    exact ⟨h.1, h.2, toByte_val_of_range h.1 h.2⟩
  · intro c dg
    have h := dark_glc_value_range c dg
    exact ⟨h.1, h.2, toByte_val_of_range h.1 h.2⟩
  · intros
    exact byte_range _
  · intros
    exact byte_range _
  · intros
    exact byte_range _
  · intros
    exact byte_range _

/-! ## C8, C9: degenerate span and black point of BLC/SLC -/

/-- C8 as stated fails on 32-bit arithmetic: with `raw = 0`, `blc = 16843009`,
`slc = 0` and offsets `0` the span is not positive and the divisor is 1, but
`(raw - blc) * 255 = -4294967295` leaves the `int` range and wraps to `1`, so
the kernel stores `1`, which is neither `0` nor `255` nor
`clampByte((raw - blc) * 255) = 0`. -/
theorem blc_slc_degenerate_span_wraps :
    apply_blc_slc_correction [0, 0, 0] 1 1 (some [16843009]) (some [16843009])
        (some [16843009]) (some [0]) (some [0]) (some [0]) 0 0 = some [1, 1, 1] ∧
    isInt32 16843009 ∧
    ((0 : Int) + 0) - (16843009 + 0) ≤ 0 ∧
    max_one (wrapInt (wrapInt (0 + 0) - wrapInt (16843009 + 0))) = 1 ∧
    clampByte (((0 : Int) - (16843009 + 0)) * 255) = 0 ∧
    (1 : Byte) ≠ 0 ∧ (1 : Byte) ≠ 255 := by
  decide

theorem clampByte_mul_255 (x : Int) :
    clampByte (x * 255) = 0 ∨ clampByte (x * 255) = 255 := by
  unfold clampByte
  split_ifs <;> omega

/-- C8, amended. On a well-formed input (pixel count `width * height` and byte
count `3 * width * height` within the `int` range, frame and maps of matching
length) the BLC/SLC kernel returns, and for
every pixel and channel whose 32-bit intermediates do not overflow and whose
span `(slc + slc_offset) - (blc + blc_offset)` is not positive, the divisor is 1
and the corrected sample equals `clampByte((raw - (blc + blc_offset)) * 255)`,
which is either `0` or `255`. -/
theorem blc_slc_degenerate_span (frame : List Byte) (width height : Int)
    (blc_r blc_g blc_b slc_r slc_g slc_b : List Int) (blc_offset slc_offset : Int)
    (hwf : BlcSlcInput frame width height blc_r blc_g blc_b slc_r slc_g slc_b) :
    ∃ out, apply_blc_slc_correction frame width height (some blc_r) (some blc_g) (some blc_b)
        (some slc_r) (some slc_g) (some slc_b) blc_offset slc_offset = some out ∧
      ∀ i k raw blc slc, i < (width * height).toNat → k < 3 →
        frame[3 * i + k]? = some raw →
        (selBGR k blc_b blc_g blc_r)[i]? = some blc →
        (selBGR k slc_b slc_g slc_r)[i]? = some slc →
        blc_slc_no_overflow (raw.val : Int) blc slc blc_offset slc_offset →
        (slc + slc_offset) - (blc + blc_offset) ≤ 0 →
        max_one (wrapInt (wrapInt (slc + slc_offset) - wrapInt (blc + blc_offset))) = 1 ∧
        ∃ b, out[3 * i + k]? = some b ∧
          (b.val : Int) = clampByte (((raw.val : Int) - (blc + blc_offset)) * 255) ∧
          (b = 0 ∨ b = 255) := by
  obtain ⟨out, ho, _, hp⟩ := blc_slc_kernel_pointwise frame width height
    blc_r blc_g blc_b slc_r slc_g slc_b blc_offset slc_offset hwf
  refine ⟨out, ho, ?_⟩
  intro i k raw blc slc hi hk hraw hblc hslc hno hspan
  have hone : maxOne ((slc + slc_offset) - (blc + blc_offset)) = 1 := by
    unfold maxOne
    rw [if_pos (by omega)]
  have hval : ((clamp_byte (blc_slc_corr (raw.val : Int) blc slc blc_offset slc_offset)).val : Int)
      = clampByte (((raw.val : Int) - (blc + blc_offset)) * 255) := by
    rw [clamp_byte_val, blc_slc_corr_eq_of_no_overflow hno, hone, Int.tdiv_one]
  refine ⟨?_, _, hp i k raw blc slc hi hk hraw hblc hslc, hval, ?_⟩
  · obtain ⟨h1, h2, _, _, h5⟩ := hno
    rw [wrapInt_of_isInt32 h1, wrapInt_of_isInt32 h2, wrapInt_of_isInt32 h5, max_one_eq_maxOne]
    exact hone
  · rcases clampByte_mul_255 ((raw.val : Int) - (blc + blc_offset)) with h | h
    · left
      apply Fin.ext
      have := hval.trans h
      simpa using this
    · right
      apply Fin.ext
      have := hval.trans h
      have e : ((255 : Byte).val : Int) = 255 := by decide
      omega

/-- Witness of C8 (amended): a 1x1 frame with `blc = slc = 100` in every channel
and samples below, at and above the black level. -/
theorem blc_slc_degenerate_span_witness :
    BlcSlcInput [50, 100, 150] 1 1 [100] [100] [100] [100] [100] [100] ∧
    apply_blc_slc_correction [50, 100, 150] 1 1 (some [100]) (some [100]) (some [100])
        (some [100]) (some [100]) (some [100]) 0 0 = some [0, 0, 255] ∧
    ∃ out, apply_blc_slc_correction [50, 100, 150] 1 1 (some [100]) (some [100]) (some [100])
        (some [100]) (some [100]) (some [100]) 0 0 = some out ∧
      ∀ i k raw blc slc, i < ((1 : Int) * 1).toNat → k < 3 →
        [(50 : Byte), 100, 150][3 * i + k]? = some raw →
        (selBGR k [(100 : Int)] [100] [100])[i]? = some blc →
        (selBGR k [(100 : Int)] [100] [100])[i]? = some slc →
        blc_slc_no_overflow (raw.val : Int) blc slc 0 0 →
        (slc + 0) - (blc + 0) ≤ 0 →
        max_one (wrapInt (wrapInt (slc + 0) - wrapInt (blc + 0))) = 1 ∧
        ∃ b, out[3 * i + k]? = some b ∧
          (b.val : Int) = clampByte (((raw.val : Int) - (blc + 0)) * 255) ∧
          (b = 0 ∨ b = 255) :=
  have hwf : BlcSlcInput [50, 100, 150] 1 1 [100] [100] [100] [100] [100] [100] :=
    ⟨by decide, by decide, by decide, by decide, by decide, by decide, by decide, by decide,
      by decide⟩
  ⟨hwf, by decide, blc_slc_degenerate_span _ _ _ _ _ _ _ _ _ _ _ hwf⟩

theorem blc_slc_corr_black_point (raw : Byte) (blc slc bo so : Int)
    (h : (raw.val : Int) = blc + bo) :
    clamp_byte (blc_slc_corr (raw.val : Int) blc slc bo so) = 0 := by
  have hr := byte_range raw
  have hw : wrapInt (blc + bo) = (raw.val : Int) := by
    rw [← h]
    exact wrapInt_of_isInt32 ⟨by omega, by omega⟩
  have hz : wrapInt 0 = 0 := by decide
  simp only [blc_slc_corr, hw, sub_self, hz, zero_mul, Int.zero_tdiv]
  decide

/-- C9. On a well-formed input (pixel count `width * height` and byte count
`3 * width * height` within the `int` range, frame and maps of matching length)
the BLC/SLC kernel returns, and for every pixel
and channel with a positive span `slc + slc_offset > blc + blc_offset` whose raw
sample equals `blc + blc_offset`, the corrected sample is `0`. -/
theorem blc_slc_black_point (frame : List Byte) (width height : Int)
    (blc_r blc_g blc_b slc_r slc_g slc_b : List Int) (blc_offset slc_offset : Int)
    (hwf : BlcSlcInput frame width height blc_r blc_g blc_b slc_r slc_g slc_b) :
    ∃ out, apply_blc_slc_correction frame width height (some blc_r) (some blc_g) (some blc_b)
        (some slc_r) (some slc_g) (some slc_b) blc_offset slc_offset = some out ∧
      ∀ i k raw blc slc, i < (width * height).toNat → k < 3 →
        frame[3 * i + k]? = some raw →
        (selBGR k blc_b blc_g blc_r)[i]? = some blc →
        (selBGR k slc_b slc_g slc_r)[i]? = some slc →
        slc + slc_offset > blc + blc_offset →
        (raw.val : Int) = blc + blc_offset →
        out[3 * i + k]? = some 0 := by
  obtain ⟨out, ho, _, hp⟩ := blc_slc_kernel_pointwise frame width height
    blc_r blc_g blc_b slc_r slc_g slc_b blc_offset slc_offset hwf
  refine ⟨out, ho, ?_⟩
  intro i k raw blc slc hi hk hraw hblc hslc _ heq
  rw [hp i k raw blc slc hi hk hraw hblc hslc, blc_slc_corr_black_point raw blc slc _ _ heq]

/-- Witness of C9: a 1x1 frame whose samples sit on the black level `20 + 3`. -/
theorem blc_slc_black_point_witness :
    BlcSlcInput [23, 23, 24] 1 1 [20] [20] [20] [200] [200] [200] ∧
    apply_blc_slc_correction [23, 23, 24] 1 1 (some [20]) (some [20]) (some [20])
        (some [200]) (some [200]) (some [200]) 3 0 = some [0, 0, 1] ∧
    ∃ out, apply_blc_slc_correction [23, 23, 24] 1 1 (some [20]) (some [20]) (some [20])
        (some [200]) (some [200]) (some [200]) 3 0 = some out ∧
      ∀ i k raw blc slc, i < ((1 : Int) * 1).toNat → k < 3 →
        [(23 : Byte), 23, 24][3 * i + k]? = some raw →
        (selBGR k [(20 : Int)] [20] [20])[i]? = some blc →
        (selBGR k [(200 : Int)] [200] [200])[i]? = some slc →
        slc + 0 > blc + 3 →
        (raw.val : Int) = blc + 3 →
        out[3 * i + k]? = some 0 :=
  have hwf : BlcSlcInput [23, 23, 24] 1 1 [20] [20] [20] [200] [200] [200] :=
    ⟨by decide, by decide, by decide, by decide, by decide, by decide, by decide, by decide,
      by decide⟩
  ⟨hwf, by decide, blc_slc_black_point _ _ _ _ _ _ _ _ _ _ _ hwf⟩

/-! ## C10: identity cases of the Dark GLC kernel -/

theorem dark_glc_value_identity (x dg : Int) (h0 : 0 ≤ x) (h1 : x ≤ 255)
    (h : dg = 0 ∨ dg = 64 ∨ dg ≥ 128) : dark_glc_value x dg = x := by
  unfold dark_glc_value
  dsimp only
  by_cases hdg : dg = 0
  · rw [if_neg (by simpa using hdg)]
  · rw [if_pos hdg, if_neg (by omega : ¬ dg < 64), if_neg (by omega : ¬ (dg > 64 ∧ dg < 128))]
    split_ifs <;> omega

/-- Effect of the Dark GLC kernel on a well-formed plane. -/
theorem dark_glc_kernel_pointwise (channel : List Byte) (total_pixels : Int)
    (dark_glc_map : List Int) (hwf : PlaneInput channel total_pixels dark_glc_map) :
    ∃ out, apply_dark_glc_correction channel total_pixels (some dark_glc_map) = some out ∧
      out.length = channel.length ∧
      ∀ i c dg, i < total_pixels.toNat → channel[i]? = some c → dark_glc_map[i]? = some dg →
        out[i]? = some (toByte (dark_glc_value (c.val : Int) dg)) := by
  obtain ⟨out, ho, hl, hp, _⟩ := planeLoop_spec dark_glc_value dark_glc_map
    total_pixels.toNat channel hwf.channel_len hwf.map_len
  exact ⟨out, by rw [apply_dark_glc_correction, dark_glc_body_eq]; exact ho, hl, hp⟩

/-- C10. On a well-formed plane `apply_dark_glc_correction` returns, and every
pixel whose dark-reference value `dg` is `0`, `64`, or at least `128` keeps its
sample. -/
theorem dark_glc_kernel_identity_cases (channel : List Byte) (total_pixels : Int)
    (dark_glc_map : List Int) (hwf : PlaneInput channel total_pixels dark_glc_map) :
    ∃ out, apply_dark_glc_correction channel total_pixels (some dark_glc_map) = some out ∧
      ∀ i c dg, i < total_pixels.toNat → channel[i]? = some c → dark_glc_map[i]? = some dg →
        (dg = 0 ∨ dg = 64 ∨ dg ≥ 128) → out[i]? = some c := by
  obtain ⟨out, ho, _, hp⟩ := dark_glc_kernel_pointwise channel total_pixels dark_glc_map hwf
  refine ⟨out, ho, ?_⟩
  intro i c dg hi hc hm hdg
  rw [hp i c dg hi hc hm,
    dark_glc_value_identity _ dg (byte_range c).1 (byte_range c).2 hdg, toByte_val_self]

/-- Witness of C10: dark-reference values `0`, `64`, `128` and `300` against a
pixel with `dg = 20` that does move. -/
theorem dark_glc_kernel_identity_cases_witness :
    PlaneInput [10, 100, 200, 30, 30] 5 [0, 64, 128, 300, 20] ∧
    apply_dark_glc_correction [10, 100, 200, 30, 30] 5 (some [0, 64, 128, 300, 20]) =
      some [10, 100, 200, 30, 69] ∧
    ∃ out, apply_dark_glc_correction [10, 100, 200, 30, 30] 5
        (some [0, 64, 128, 300, 20]) = some out ∧
      ∀ i c dg, i < (5 : Int).toNat → [(10 : Byte), 100, 200, 30, 30][i]? = some c →
        [(0 : Int), 64, 128, 300, 20][i]? = some dg →
        (dg = 0 ∨ dg = 64 ∨ dg ≥ 128) → out[i]? = some c :=
  have hwf : PlaneInput [10, 100, 200, 30, 30] 5 [0, 64, 128, 300, 20] :=
    ⟨by decide, by decide⟩
  ⟨hwf, by decide, dark_glc_kernel_identity_cases _ _ _ hwf⟩

/-! ## Facts shared by the later theorems -/

theorem glc_run_value (iVal g_raw : Int) : (glc_run iVal g_raw).value = glc_value iVal g_raw := by
  unfold glc_run glc_value
  dsimp only
  generalize (if g_raw < 0 then (0 : Int) else if g_raw > 255 then 255 else g_raw) = G
  generalize (if G < 1 then (1 : Int) else G) = g
  by_cases h0 : G = 0
  · rw [if_neg (by simpa using h0), if_neg (by simpa using h0)]
  · rw [if_pos h0, if_pos h0]
    by_cases h1 : G < 127
    · rw [if_pos h1, if_pos h1]
      by_cases h2 : iVal > g
      · rw [if_pos h2, if_pos h2]
        by_cases h3 : 255 - g > 0
        · rw [if_pos h3, if_pos h3]
        · rw [if_neg h3, if_neg h3]
      · rw [if_neg h2, if_neg h2]
    · rw [if_neg h1, if_neg h1]
      by_cases h4 : G > 127
      · rw [if_pos h4, if_pos h4]
        by_cases h2 : iVal > g
        · rw [if_pos h2, if_pos h2]
          by_cases h3 : 255 - g > 0
          · rw [if_pos h3, if_pos h3]
          · rw [if_neg h3, if_neg h3]
        · rw [if_neg h2, if_neg h2]
      · rw [if_neg h4, if_neg h4]

theorem blc_slc_corr_divisor (val blc slc bo so : Int) :
    blc_slc_corr val blc slc bo so =
      Int.tdiv (wrapInt (wrapInt (val - wrapInt (blc + bo)) * 255))
        (blc_slc_divisor blc slc bo so) := rfl

theorem clamp_twice_eq (B : Int) :
    (if (if B > 255 then 255 else B) < 0 then 0 else (if B > 255 then (255 : Int) else B)) =
      clampByte B := by
  unfold clampByte
  split_ifs <;> omega

theorem shiftRight_one (x : Int) : x >>> (1 : Int) = x / 2 := by
  cases x with
  | ofNat m =>
    have h := Int.shiftRight_coe_nat m 1
    simp only [Nat.cast_one] at h
    rw [Int.ofNat_eq_coe, h, Nat.shiftRight_one]
    omega
  | negSucc m =>
    have h := Int.shiftRight_negSucc m 1
    simp only [Nat.cast_one] at h
    rw [h, Nat.shiftRight_one]
    simp only [Int.negSucc_eq]
    omega

/-! ## C11: the branch gap of the Dark GLC kernel -/

theorem dark_glc_value_gap (x dg : Int) (h0 : 0 ≤ x) (h1 : x ≤ 255)
    (hdg : dg ≠ 0) (hlt : dg < 64) (hx : 128 ≤ x) : dark_glc_value x dg = x := by
  unfold dark_glc_value
  dsimp only
  rw [if_pos hdg, if_pos hlt, if_neg (by omega : ¬ (x > dg ∧ x < 128)),
    if_neg (by omega : ¬ x < 64)]
  split_ifs <;> omega

theorem dark_glc_value_low (x dg : Int) (h0 : 0 ≤ x)
    (hdg : 0 < dg) (hlt : dg < 64) (hx : x < 128) :
    dark_glc_value x dg = clampByte (dark_low_remap x dg) := by
  unfold dark_glc_value dark_low_remap
  dsimp only
  rw [if_pos (by omega : dg ≠ 0), if_pos hlt]
  by_cases hc : x > dg
  · rw [if_pos (by omega : x > dg ∧ x < 128), if_pos hc,
      wrapInt_of_isInt32 (by unfold isInt32; omega : isInt32 (x - dg)),
      wrapInt_of_isInt32 (by unfold isInt32; omega : isInt32 (128 - dg))]
    exact clamp_twice_eq _
  · rw [if_neg (by omega : ¬ (x > dg ∧ x < 128)), if_pos (by omega : x < 64), if_neg hc]
    exact clamp_twice_eq _

/-- C11. On a well-formed plane `apply_dark_glc_correction` returns, and
(1) every pixel with a non-zero dark-reference value `dg < 64` and a sample
`c >= 128` keeps its sample: neither sub-case of the `dg < quarter` branch
fires; (2) for `0 < dg < 64` every sample `c < 128` is rewritten by one of the
two sub-cases (the stretch when `c > dg`, the scaling otherwise), so
(3) `c >= 128` is exactly the condition under which neither sub-case test
`c > dg && c < half`, `c < quarter` holds. -/
theorem dark_glc_kernel_branch_gap (channel : List Byte) (total_pixels : Int)
    (dark_glc_map : List Int) (hwf : PlaneInput channel total_pixels dark_glc_map) :
    ∃ out, apply_dark_glc_correction channel total_pixels (some dark_glc_map) = some out ∧
      (∀ i c dg, i < total_pixels.toNat → channel[i]? = some c →
        dark_glc_map[i]? = some dg → dg ≠ 0 → dg < 64 → 128 ≤ (c.val : Int) →
        out[i]? = some c) ∧
      (∀ i c dg, i < total_pixels.toNat → channel[i]? = some c →
        dark_glc_map[i]? = some dg → 0 < dg → dg < 64 → (c.val : Int) < 128 →
        out[i]? = some (toByte (clampByte (dark_low_remap (c.val : Int) dg)))) ∧
      (∀ (c : Byte) (dg : Int), 0 < dg → dg < 64 →
        ((¬ ((c.val : Int) > dg ∧ (c.val : Int) < 128) ∧ ¬ (c.val : Int) < 64) ↔
          128 ≤ (c.val : Int))) := by
  obtain ⟨out, ho, _, hp⟩ := dark_glc_kernel_pointwise channel total_pixels dark_glc_map hwf
  refine ⟨out, ho, ?_, ?_, ?_⟩
  · intro i c dg hi hc hm hdg hlt hx
    rw [hp i c dg hi hc hm,
      dark_glc_value_gap _ dg (byte_range c).1 (byte_range c).2 hdg hlt hx, toByte_val_self]
  · intro i c dg hi hc hm hdg hlt hx
    rw [hp i c dg hi hc hm, dark_glc_value_low _ dg (byte_range c).1 hdg hlt hx]
  · intro c dg hdg hlt
    constructor
    · intro h
      omega
    · intro h
      omega

/-- Witness of C11: `dg = 20` and `dg = -5` against samples on both sides of
`128`. -/
theorem dark_glc_kernel_branch_gap_witness :
    PlaneInput [128, 255, 200, 127, 10] 5 [20, 20, -5, 20, 20] ∧
    apply_dark_glc_correction [128, 255, 200, 127, 10] 5 (some [20, 20, -5, 20, 20]) =
      some [128, 255, 200, 127, 32] ∧
    ∃ out, apply_dark_glc_correction [128, 255, 200, 127, 10] 5
        (some [20, 20, -5, 20, 20]) = some out ∧
      (∀ i c dg, i < (5 : Int).toNat → [(128 : Byte), 255, 200, 127, 10][i]? = some c →
        [(20 : Int), 20, -5, 20, 20][i]? = some dg → dg ≠ 0 → dg < 64 → 128 ≤ (c.val : Int) →
        out[i]? = some c) ∧
      (∀ i c dg, i < (5 : Int).toNat → [(128 : Byte), 255, 200, 127, 10][i]? = some c →
        [(20 : Int), 20, -5, 20, 20][i]? = some dg → 0 < dg → dg < 64 → (c.val : Int) < 128 →
        out[i]? = some (toByte (clampByte (dark_low_remap (c.val : Int) dg)))) ∧
      (∀ (c : Byte) (dg : Int), 0 < dg → dg < 64 →
        ((¬ ((c.val : Int) > dg ∧ (c.val : Int) < 128) ∧ ¬ (c.val : Int) < 64) ↔
          128 ≤ (c.val : Int))) :=
  have hwf : PlaneInput [128, 255, 200, 127, 10] 5 [20, 20, -5, 20, 20] :=
    ⟨by decide, by decide⟩
  ⟨hwf, by decide, dark_glc_kernel_branch_gap _ _ _ hwf⟩

/-! ## C12: blending in the Dark GLC kernel -/

theorem dark_glc_value_mid (x dg : Int) (hlo : 64 < dg) (hhi : dg < 128) :
    dark_glc_value x dg = clampByte ((x + dark_mid_remap x dg) >>> 1) := by
  unfold dark_glc_value dark_mid_remap
  dsimp only
  rw [if_pos (by omega : dg ≠ 0), if_neg (by omega : ¬ dg < 64),
    if_pos (by omega : dg > 64 ∧ dg < 128)]
  by_cases hc : x > dg
  · rw [if_pos hc, if_pos hc]
    exact clamp_twice_eq _
  · rw [if_neg hc, if_neg hc]
    exact clamp_twice_eq _

theorem clamped_average_near (a r : Int) (h0 : 0 ≤ a) (h1 : a ≤ 255) :
    2 * |clampByte ((a + r) >>> 1) - a| ≤ |r - a| + 1 := by
  rw [shiftRight_one]
  have ho : clampByte ((a + r) / 2) = 0 ∧ (a + r) / 2 < 0 ∨
      clampByte ((a + r) / 2) = 255 ∧ 255 < (a + r) / 2 ∨
      clampByte ((a + r) / 2) = (a + r) / 2 := by
    unfold clampByte
    split_ifs <;> omega
  generalize clampByte ((a + r) / 2) = o at ho
  rcases abs_cases (o - a) with ⟨e1, _⟩ | ⟨e1, _⟩ <;>
    rcases abs_cases (r - a) with ⟨e2, _⟩ | ⟨e2, _⟩ <;> omega

/-- C12 as stated fails twice. (1) The stored value is the floor-average clamped
to `[0, 255]`, not the floor-average: for `a = 255`, `dg = 127` the remapped
value is `r = 8256`, the floor-average is `4255` and the kernel stores `255`.
(2) The floor-average can lie further from `a` than half of `|r - a|`: for
`a = 1`, `dg = 100` the remapped value is `r = 0`, the kernel stores `0`, at
distance `1` from `a`, while `|r - a| = 1`. -/
theorem dark_glc_blend_not_plain_average :
    apply_dark_glc_correction [255, 1] 2 (some [127, 100]) = some [255, 0] ∧
    dark_mid_remap 255 127 = 8256 ∧ ((255 : Int) + 8256) >>> 1 = 4255 ∧
    dark_mid_remap 1 100 = 0 ∧ ((1 : Int) + 0) >>> 1 = 0 ∧
    ¬ (2 * |(0 : Int) - 1| ≤ |dark_mid_remap 1 100 - 1|) := by
  decide

/-- C12, amended. On a well-formed plane `apply_dark_glc_correction` returns,
and for every pixel with `64 < dg < 128` and sample `a` the output is the
floor-average `(a + r) >> 1` of `a` and the remapped value `r`, clamped to
`[0, 255]`, where `r = 64 + trunc((a - dg) * (64 / (128 - dg)))` if `a > dg` and
`r = trunc(a / (dg / 64))` otherwise; and the output lies no further from `a`
than half of `|r - a|` rounded up. -/
theorem dark_glc_kernel_blend (channel : List Byte) (total_pixels : Int)
    (dark_glc_map : List Int) (hwf : PlaneInput channel total_pixels dark_glc_map) :
    ∃ out, apply_dark_glc_correction channel total_pixels (some dark_glc_map) = some out ∧
      ∀ i a dg, i < total_pixels.toNat → channel[i]? = some a →
        dark_glc_map[i]? = some dg → 64 < dg → dg < 128 →
        ∃ b, out[i]? = some b ∧
          (b.val : Int) = clampByte (((a.val : Int) + dark_mid_remap (a.val : Int) dg) >>> 1) ∧
          2 * |(b.val : Int) - (a.val : Int)| ≤ |dark_mid_remap (a.val : Int) dg - (a.val : Int)| + 1 := by
  obtain ⟨out, ho, _, hp⟩ := dark_glc_kernel_pointwise channel total_pixels dark_glc_map hwf
  refine ⟨out, ho, ?_⟩
  intro i a dg hi ha hm hlo hhi
  have hv : ((toByte (dark_glc_value (a.val : Int) dg)).val : Int) =
      clampByte (((a.val : Int) + dark_mid_remap (a.val : Int) dg) >>> 1) := by
    rw [toByte_val_of_range (dark_glc_value_range a dg).1 (dark_glc_value_range a dg).2]
    exact dark_glc_value_mid _ dg hlo hhi
  refine ⟨_, hp i a dg hi ha hm, hv, ?_⟩
  rw [hv]
  exact clamped_average_near _ _ (byte_range a).1 (byte_range a).2

/-- Witness of C12 (amended): samples above and below `dg = 100`, `dg = 127`. -/
theorem dark_glc_kernel_blend_witness :
    PlaneInput [200, 50, 255, 1] 4 [100, 100, 127, 100] ∧
    apply_dark_glc_correction [200, 50, 255, 1] 4 (some [100, 100, 127, 100]) =
      some [246, 41, 255, 0] ∧
    ∃ out, apply_dark_glc_correction [200, 50, 255, 1] 4
        (some [100, 100, 127, 100]) = some out ∧
      ∀ i a dg, i < (4 : Int).toNat → [(200 : Byte), 50, 255, 1][i]? = some a →
        [(100 : Int), 100, 127, 100][i]? = some dg → 64 < dg → dg < 128 →
        ∃ b, out[i]? = some b ∧
          (b.val : Int) = clampByte (((a.val : Int) + dark_mid_remap (a.val : Int) dg) >>> 1) ∧
          2 * |(b.val : Int) - (a.val : Int)| ≤ |dark_mid_remap (a.val : Int) dg - (a.val : Int)| + 1 :=
  have hwf : PlaneInput [200, 50, 255, 1] 4 [100, 100, 127, 100] := ⟨by decide, by decide⟩
  ⟨hwf, by decide, dark_glc_kernel_blend _ _ _ hwf⟩

/-! ## C13: the GLC worked example -/

/-- C13 as stated fails: for `g = 1`, `c = 255` the kernel stores `255`, not
`254`. The reference value `1` is below `mid = 127`, so the sample takes the
`g_raw < mid` path with multiplier `midp = 128`, not the `g_raw > mid` path with
multiplier `mid = 127` that gives `127 + (254 * 127) / 254 = 254`. -/
theorem glc_worked_example_not_254 :
    apply_glc_correction [255] 1 (some [1]) = some [255] ∧
    glc_value 255 1 = 255 ∧ glc_value 255 1 ≠ 254 ∧
    (glc_run 255 1).branch ≠ GlcBranch.highlightCompress ∧
    (127 : Int) + Int.tdiv (254 * 127) 254 = 254 := by
  decide

/-- C13, amended. For reference value `g = 1` and sample `c = 255` the GLC
kernel takes the shadow-stretch path (`g < mid`, `c > g`) with denominator
`254`, without fallback, and yields `127 + (254 * 128) / 254 = 255`. -/
theorem glc_worked_example :
    glc_run 255 1 = ⟨255, GlcBranch.shadowStretch, some 254, false, false⟩ ∧
    (127 : Int) + Int.tdiv (254 * 128) 254 = 255 ∧
    glc_value 255 1 = 255 ∧
    apply_glc_correction [255] 1 (some [1]) = some [255] := by
  decide

/-! ## C17: range of the shadow stretch -/

/-- C17 as stated fails: for `g = 1` and `c = 2` the quotient
`((c - g) * 128) / (255 - g) = 128 / 254` is `0` and the kernel stores `127`,
which is not strictly greater than `127`. -/
theorem glc_shadow_stretch_reaches_mid :
    apply_glc_correction [2] 1 (some [1]) = some [127] ∧
    (1 : Int) ≤ 1 ∧ (1 : Int) < 127 ∧ (1 : Int) < 2 ∧ (2 : Int) ≤ 255 ∧
    glc_value 2 1 = 127 ∧ ¬ ((127 : Int) < glc_value 2 1) := by
  decide

theorem glc_value_shadow_stretch_range (c g : Int) (hg1 : 1 ≤ g) (hg2 : g < 127)
    (hc1 : g < c) (hc2 : c ≤ 255) : 127 ≤ glc_value c g ∧ glc_value c g ≤ 255 := by
  rw [glc_value_eq_reference_int c g (by omega) hc2]
  unfold glc_reference
  have hG : max 0 (min g 255) = g := by
    simp only [max_def, min_def]
    split_ifs <;> omega
  rw [hG]
  dsimp only
  rw [if_neg (by omega : ¬ (g = 0 ∨ g = 127)), if_pos hg2, if_pos (by omega : c > g)]
  have hq : 0 ≤ Int.tdiv ((c - g) * 128) (255 - g) :=
    Int.tdiv_nonneg (Int.mul_nonneg (by omega) (by omega)) (by omega)
  generalize Int.tdiv ((c - g) * 128) (255 - g) = q at hq
  unfold clampByte
  split_ifs <;> omega

/-- C17, amended. On a well-formed plane `apply_glc_correction` returns, and for
every pixel with reference value `1 <= g < 127` and sample `g < c <= 255` the
output lies in the closed range `[127, 255]`. -/
theorem glc_kernel_shadow_stretch_range (channel : List Byte) (total_pixels : Int)
    (glc_map : List Int) (hwf : PlaneInput channel total_pixels glc_map) :
    ∃ out, apply_glc_correction channel total_pixels (some glc_map) = some out ∧
      ∀ i c g, i < total_pixels.toNat → channel[i]? = some c → glc_map[i]? = some g →
        1 ≤ g → g < 127 → g < (c.val : Int) →
        ∃ b, out[i]? = some b ∧ 127 ≤ (b.val : Int) ∧ (b.val : Int) ≤ 255 := by
  obtain ⟨out, ho, _, hp⟩ := glc_kernel_pointwise channel total_pixels glc_map hwf
  refine ⟨out, ho, ?_⟩
  intro i c g hi hc hm hg1 hg2 hcg
  refine ⟨_, hp i c g hi hc hm, ?_⟩
  rw [toByte_val_of_range (glc_value_range c g).1 (glc_value_range c g).2]
  exact glc_value_shadow_stretch_range _ g hg1 hg2 hcg (byte_range c).2

/-- Witness of C17 (amended): the extremes `127` and `255` are both reached. -/
theorem glc_kernel_shadow_stretch_range_witness :
    PlaneInput [2, 255, 100] 3 [1, 1, 60] ∧
    apply_glc_correction [2, 255, 100] 3 (some [1, 1, 60]) = some [127, 255, 153] ∧
    ∃ out, apply_glc_correction [2, 255, 100] 3 (some [1, 1, 60]) = some out ∧
      ∀ i c g, i < (3 : Int).toNat → [(2 : Byte), 255, 100][i]? = some c →
        [(1 : Int), 1, 60][i]? = some g →
        1 ≤ g → g < 127 → g < (c.val : Int) →
        ∃ b, out[i]? = some b ∧ 127 ≤ (b.val : Int) ∧ (b.val : Int) ≤ 255 :=
  have hwf : PlaneInput [2, 255, 100] 3 [1, 1, 60] := ⟨by decide, by decide⟩
  ⟨hwf, by decide, glc_kernel_shadow_stretch_range _ _ _ hwf⟩

/-! ## C19: division safety of the integer kernels -/

theorem max_one_pos (v : Int) : 0 < max_one v := by
  unfold max_one
  split_ifs <;> omega

theorem glc_run_safe_int (x g_raw : Int) (h1 : x ≤ 255) :
    (∀ d, (glc_run x g_raw).divisor = some d → 0 < d) ∧
    (glc_run x g_raw).fallback = false ∧ (glc_run x g_raw).floored = false := by
  unfold glc_run
  dsimp only
  have hGr : 0 ≤ (if g_raw < 0 then (0 : Int) else if g_raw > 255 then 255 else g_raw) ∧
      (if g_raw < 0 then (0 : Int) else if g_raw > 255 then 255 else g_raw) ≤ 255 := by
    split_ifs <;> omega
  generalize (if g_raw < 0 then (0 : Int) else if g_raw > 255 then 255 else g_raw) = G at hGr
  by_cases h0 : G = 0
  · rw [if_neg (by simpa using h0)]
    simp
  · rw [if_pos h0]
    have hg : (if G < 1 then (1 : Int) else G) = G := if_neg (by omega)
    have hfl : decide (G < 1) = false := by simp; omega
    rw [hg, hfl]
    by_cases hlt : G < 127
    · rw [if_pos hlt]
      by_cases hx : x > G
      · rw [if_pos hx, if_pos (by omega : 255 - G > 0)]
        refine ⟨?_, rfl, rfl⟩
        intro d hd
        simp only [Option.some.injEq] at hd
        omega
      · rw [if_neg hx]
        refine ⟨?_, rfl, rfl⟩
        intro d hd
        simp only [Option.some.injEq] at hd
        omega
    · rw [if_neg hlt]
      by_cases hgt : G > 127
      · rw [if_pos hgt]
        by_cases hx : x > G
        · rw [if_pos hx, if_pos (by omega : 255 - G > 0)]
          refine ⟨?_, rfl, rfl⟩
          intro d hd
          simp only [Option.some.injEq] at hd
          omega
        · rw [if_neg hx]
          refine ⟨?_, rfl, rfl⟩
          intro d hd
          simp only [Option.some.injEq] at hd
          omega
      · rw [if_neg hgt]
        simp

theorem width_ne_zero_of_iteration (width height : Int) (i : Nat)
    (hi : (i : Int) < wrapInt (width * height)) : width ≠ 0 := by
  intro hw
  rw [hw, zero_mul] at hi
  have h0 : wrapInt 0 = 0 := by decide
  rw [h0] at hi
  omega

/-- C19 as stated fails: every iteration of the loop of
`apply_blc_slc_correction` executes `i / width` and `i % width` (lines 38-39),
and for `width = -1`, `height = -1` the pixel count is `1`, the loop runs (the
1x1 frame is corrected) and the divisor of both operations is `-1`, which is
not strictly positive. -/
theorem index_division_negative_divisor :
    apply_blc_slc_correction [10, 10, 10] (-1) (-1) (some [5]) (some [5]) (some [5])
        (some [200]) (some [200]) (some [200]) 0 0 = some [6, 6, 6] ∧
    (0 : Int) < wrapInt ((-1) * (-1)) ∧
    intDiv 0 (-1) = some 0 ∧ intMod 0 (-1) = some 0 ∧
    (-1 : Int) ∈ blc_slc_iteration_divisors (-1) 5 5 5 200 200 200 0 0 ∧
    ¬ (0 < (-1 : Int)) := by
  decide

/-- C19, amended. For all byte samples, all map values and all offsets, every
integer division of the BLC/SLC and GLC kernels has a non-zero divisor:
(1) whenever iteration `i` of the BLC/SLC loop executes (`i < total_pixels`),
`width` is not `0`, so `i / width` and `i % width` are defined, no divisor of
the iteration is `0`, and all of them are strictly positive when `width > 0`;
(2) the divisor of the sample division of a channel block is `max_one` of the
span, strictly positive for every `width`; (3) in the GLC loop body the divisor
(`255 - g` or `g`) is positive on every path, no `denom > 0` test ever fails
(the constants `mid` and `maxv` are never taken as fallback results) and `g` is
never floored to 1; the value computed along the recorded path is the value the
kernel stores. -/
theorem integer_divisions_safe :
    (∀ (width height : Int) (i : Nat) (blc_r blc_g blc_b slc_r slc_g slc_b : Int)
      (blc_offset slc_offset : Int), (i : Int) < wrapInt (width * height) →
      width ≠ 0 ∧ intDiv (i : Int) width ≠ none ∧ intMod (i : Int) width ≠ none ∧
      (∀ d ∈ blc_slc_iteration_divisors width blc_r blc_g blc_b slc_r slc_g slc_b
        blc_offset slc_offset, d ≠ 0) ∧
      (0 < width → ∀ d ∈ blc_slc_iteration_divisors width blc_r blc_g blc_b slc_r slc_g slc_b
        blc_offset slc_offset, 0 < d)) ∧
    (∀ (blc slc blc_offset slc_offset : Int), 0 < blc_slc_divisor blc slc blc_offset slc_offset) ∧
    (∀ (val blc slc blc_offset slc_offset : Int),
      blc_slc_corr val blc slc blc_offset slc_offset =
        Int.tdiv (wrapInt (wrapInt (val - wrapInt (blc + blc_offset)) * 255))
          (blc_slc_divisor blc slc blc_offset slc_offset)) ∧
    (∀ (c : Byte) (g_raw : Int),
      (∀ d, (glc_run (c.val : Int) g_raw).divisor = some d → 0 < d) ∧
      (glc_run (c.val : Int) g_raw).fallback = false ∧
      (glc_run (c.val : Int) g_raw).floored = false ∧
      (glc_run (c.val : Int) g_raw).value = glc_value (c.val : Int) g_raw) := by
  refine ⟨?_, ?_, ?_, ?_⟩
  · intro width height i blc_r blc_g blc_b slc_r slc_g slc_b bo so hi
    have hw : width ≠ 0 := width_ne_zero_of_iteration width height i hi
    have hdiv : ∀ d ∈ blc_slc_iteration_divisors width blc_r blc_g blc_b slc_r slc_g slc_b
        bo so, d = width ∨ 0 < d := by
      intro d hd
      simp only [blc_slc_iteration_divisors, List.mem_cons, List.mem_singleton,
        List.not_mem_nil, or_false] at hd
      rcases hd with h | h | h | h | h
      · exact Or.inl h
      · exact Or.inl h
      · exact Or.inr (h ▸ max_one_pos _)
      · exact Or.inr (h ▸ max_one_pos _)
      · exact Or.inr (h ▸ max_one_pos _)
    refine ⟨hw, ?_, ?_, ?_, ?_⟩
    · simp [intDiv, hw]
    · simp [intMod, hw]
    · intro d hd
      rcases hdiv d hd with h | h
      · rw [h]
        exact hw
      · omega
    · intro hpos d hd
      rcases hdiv d hd with h | h
      · rw [h]
        exact hpos
      · exact h
  · intro blc slc bo so
    exact max_one_pos _
  · intro val blc slc bo so
    rfl
  · intro c g_raw
    obtain ⟨h1, h2, h3⟩ := glc_run_safe_int (c.val : Int) g_raw (byte_range c).2
    exact ⟨h1, h2, h3, glc_run_value _ _⟩

/-! ## C18: the GLC tone curve is monotone -/

theorem clampByte_mono {a b : Int} (h : a ≤ b) : clampByte a ≤ clampByte b := by
  unfold clampByte
  split_ifs <;> omega

theorem tdiv_mono_nonneg {a b d : Int} (ha : 0 ≤ a) (hab : a ≤ b) (hd : 0 < d) :
    Int.tdiv a d ≤ Int.tdiv b d := by
  rw [Int.tdiv_eq_ediv ha (le_of_lt hd), Int.tdiv_eq_ediv (le_trans ha hab) (le_of_lt hd)]
  exact Int.ediv_le_ediv hd hab

theorem tdiv_le_of_le_mul {a b d : Int} (ha : 0 ≤ a) (hd : 0 < d) (h : a ≤ b * d) :
    Int.tdiv a d ≤ b := by
  rw [Int.tdiv_eq_ediv ha (le_of_lt hd)]
  exact Int.ediv_le_of_le_mul hd h

theorem le_tdiv_of_mul_le {a b d : Int} (hb : 0 ≤ b) (hd : 0 < d) (h : a * d ≤ b) :
    a ≤ Int.tdiv b d := by
  rw [Int.tdiv_eq_ediv hb (le_of_lt hd)]
  exact Int.le_ediv_of_mul_le hd h

theorem glc_value_mono (x1 x2 g : Int) (h0 : 0 ≤ x1) (h12 : x1 ≤ x2) (h2 : x2 ≤ 255) :
    glc_value x1 g ≤ glc_value x2 g := by
  rw [glc_value_eq_reference_int x1 g h0 (by omega),
    glc_value_eq_reference_int x2 g (by omega) h2]
  unfold glc_reference
  dsimp only
  have hGr : 0 ≤ max 0 (min g 255) ∧ max 0 (min g 255) ≤ 255 := by
    simp only [max_def, min_def]
    split_ifs <;> omega
  generalize max 0 (min g 255) = G at hGr
  by_cases hid : G = 0 ∨ G = 127
  · rw [if_pos hid, if_pos hid]
    exact h12
  · rw [if_neg hid, if_neg hid]
    by_cases hlt : G < 127
    · rw [if_pos hlt, if_pos hlt]
      by_cases hx1 : x1 > G
      · rw [if_pos hx1, if_pos (by omega : x2 > G)]
        apply clampByte_mono
        have := tdiv_mono_nonneg (a := (x1 - G) * 128) (b := (x2 - G) * 128) (d := 255 - G)
          (by omega) (by omega) (by omega)
        omega
      · rw [if_neg hx1]
        by_cases hx2 : x2 > G
        · rw [if_pos hx2]
          apply clampByte_mono
          have e1 := tdiv_le_of_le_mul (a := x1 * 127) (b := 127) (d := G)
            (by omega) (by omega) (by omega)
          have e2 : 0 ≤ Int.tdiv ((x2 - G) * 128) (255 - G) :=
            Int.tdiv_nonneg (by omega) (by omega)
          omega
        · rw [if_neg hx2]
          apply clampByte_mono
          exact tdiv_mono_nonneg (by omega) (by omega) (by omega)
    · rw [if_neg hlt, if_neg hlt]
      by_cases hx1 : x1 > G
      · rw [if_pos hx1, if_pos (by omega : x2 > G)]
        apply clampByte_mono
        have := tdiv_mono_nonneg (a := (x1 - G) * 127) (b := (x2 - G) * 127) (d := 255 - G)
          (by omega) (by omega) (by omega)
        omega
      · rw [if_neg hx1]
        by_cases hx2 : x2 > G
        · rw [if_pos hx2]
          apply clampByte_mono
          have e1 := tdiv_le_of_le_mul (a := x1 * 128) (b := 128) (d := G)
            (by omega) (by omega) (by omega)
          have e2 := le_tdiv_of_mul_le (a := 1) (b := (x2 - G) * 127) (d := 255 - G)
            (by omega) (by omega) (by omega)
          omega
        · rw [if_neg hx2]
          apply clampByte_mono
          exact tdiv_mono_nonneg (by omega) (by omega) (by omega)

/-- C18. On a well-formed plane `apply_glc_correction` returns, and for any two
pixels with the same reference map value `g` (any integer) and samples
`c1 <= c2` the output for `c1` is at most the output for `c2`, whichever
sub-branch each of the two samples takes. -/
theorem glc_kernel_monotone (channel : List Byte) (total_pixels : Int)
    (glc_map : List Int) (hwf : PlaneInput channel total_pixels glc_map) :
    ∃ out, apply_glc_correction channel total_pixels (some glc_map) = some out ∧
      ∀ i j c1 c2 g, i < total_pixels.toNat → j < total_pixels.toNat →
        channel[i]? = some c1 → channel[j]? = some c2 →
        glc_map[i]? = some g → glc_map[j]? = some g → c1 ≤ c2 →
        ∃ b1 b2, out[i]? = some b1 ∧ out[j]? = some b2 ∧ b1 ≤ b2 := by
  obtain ⟨out, ho, _, hp⟩ := glc_kernel_pointwise channel total_pixels glc_map hwf
  refine ⟨out, ho, ?_⟩
  intro i j c1 c2 g hi hj hc1 hc2 hg1 hg2 hle
  refine ⟨_, _, hp i c1 g hi hc1 hg1, hp j c2 g hj hc2 hg2, ?_⟩
  have hle' : (c1.val : Int) ≤ (c2.val : Int) := by
    have : c1.val ≤ c2.val := hle
    omega
  have hm := glc_value_mono (c1.val : Int) (c2.val : Int) g (byte_range c1).1 hle'
    (byte_range c2).2
  have e1 := toByte_val_of_range (glc_value_range c1 g).1 (glc_value_range c1 g).2
  have e2 := toByte_val_of_range (glc_value_range c2 g).1 (glc_value_range c2 g).2
  show (toByte (glc_value (c1.val : Int) g)).val ≤ (toByte (glc_value (c2.val : Int) g)).val
  omega

/-- Witness of C18: samples on both sides of `g = 200` and of `g = 60`. -/
theorem glc_kernel_monotone_witness :
    PlaneInput [10, 200, 201, 255, 60, 61] 6 [200, 200, 200, 200, 60, 60] ∧
    apply_glc_correction [10, 200, 201, 255, 60, 61] 6 (some [200, 200, 200, 200, 60, 60]) =
      some [6, 128, 129, 254, 127, 127] ∧
    ∃ out, apply_glc_correction [10, 200, 201, 255, 60, 61] 6
        (some [200, 200, 200, 200, 60, 60]) = some out ∧
      ∀ i j c1 c2 g, i < (6 : Int).toNat → j < (6 : Int).toNat →
        [(10 : Byte), 200, 201, 255, 60, 61][i]? = some c1 →
        [(10 : Byte), 200, 201, 255, 60, 61][j]? = some c2 →
        [(200 : Int), 200, 200, 200, 60, 60][i]? = some g →
        [(200 : Int), 200, 200, 200, 60, 60][j]? = some g → c1 ≤ c2 →
        ∃ b1 b2, out[i]? = some b1 ∧ out[j]? = some b2 ∧ b1 ≤ b2 :=
  have hwf : PlaneInput [10, 200, 201, 255, 60, 61] 6 [200, 200, 200, 200, 60, 60] :=
    ⟨by decide, by decide⟩
  ⟨hwf, by decide, glc_kernel_monotone _ _ _ hwf⟩

/-! ## C20: saturation and monotonicity of BLC/SLC -/

theorem tdiv_nonpos_of_nonpos {a d : Int} (ha : a ≤ 0) (hd : 0 < d) : Int.tdiv a d ≤ 0 := by
  have h : 0 ≤ Int.tdiv (-a) d := Int.tdiv_nonneg (by omega) (le_of_lt hd)
  rw [Int.neg_tdiv] at h
  omega

theorem tdiv_mono {a b d : Int} (hab : a ≤ b) (hd : 0 < d) : Int.tdiv a d ≤ Int.tdiv b d := by
  by_cases ha : 0 ≤ a
  · exact tdiv_mono_nonneg ha hab hd
  · by_cases hb : 0 ≤ b
    · have h1 := tdiv_nonpos_of_nonpos (a := a) (by omega) hd
      have h2 : 0 ≤ Int.tdiv b d := Int.tdiv_nonneg hb (le_of_lt hd)
      omega
    · have h := tdiv_mono_nonneg (a := -b) (b := -a) (d := d) (by omega) (by omega) hd
      rw [Int.neg_tdiv, Int.neg_tdiv] at h
      omega

theorem blc_slc_reference_pos_span {raw blc slc bo so : Int} (hspan : slc + so > blc + bo) :
    blc_slc_reference raw blc slc bo so =
      clampByte (Int.tdiv ((raw - (blc + bo)) * 255) ((slc + so) - (blc + bo))) := by
  unfold blc_slc_reference maxOne
  rw [if_neg (by omega)]

theorem blc_slc_reference_low {raw blc slc bo so : Int} (hspan : slc + so > blc + bo)
    (hraw : raw ≤ blc + bo) : blc_slc_reference raw blc slc bo so = 0 := by
  rw [blc_slc_reference_pos_span hspan]
  have h := tdiv_nonpos_of_nonpos (a := (raw - (blc + bo)) * 255)
    (d := (slc + so) - (blc + bo)) (by omega) (by omega)
  unfold clampByte
  split_ifs <;> omega

theorem blc_slc_reference_high {raw blc slc bo so : Int} (hspan : slc + so > blc + bo)
    (hraw : slc + so ≤ raw) : blc_slc_reference raw blc slc bo so = 255 := by
  rw [blc_slc_reference_pos_span hspan]
  have h := le_tdiv_of_mul_le (a := 255) (b := (raw - (blc + bo)) * 255)
    (d := (slc + so) - (blc + bo)) (by omega) (by omega) (by omega)
  unfold clampByte
  split_ifs <;> omega

theorem blc_slc_reference_mono {raw1 raw2 blc slc bo so : Int} (hspan : slc + so > blc + bo)
    (hraw : raw1 ≤ raw2) :
    blc_slc_reference raw1 blc slc bo so ≤ blc_slc_reference raw2 blc slc bo so := by
  rw [blc_slc_reference_pos_span hspan, blc_slc_reference_pos_span hspan]
  apply clampByte_mono
  exact tdiv_mono (by omega) (by omega)

theorem blc_slc_stored_val {raw blc slc bo so : Int}
    (hno : blc_slc_no_overflow raw blc slc bo so) :
    ((clamp_byte (blc_slc_corr raw blc slc bo so)).val : Int) =
      blc_slc_reference raw blc slc bo so := by
  rw [clamp_byte_val, blc_slc_corr_eq_of_no_overflow hno]
  rfl

/-- C20. On a well-formed input (pixel count `width * height` and byte count
`3 * width * height` within the `int` range, frame and maps of matching length)
the BLC/SLC kernel returns, and for map values
and offsets with a positive span `slc + slc_offset > blc + blc_offset` whose
32-bit intermediates do not overflow: (1) the corrected sample is `0` for every
raw sample `raw <= blc + blc_offset`; (2) it is `255` for every
`raw >= slc + slc_offset`; (3) of two samples corrected with the same map
values, the one with the smaller raw value gets the smaller or equal corrected
value. -/
theorem blc_slc_saturation_and_monotonicity (frame : List Byte) (width height : Int)
    (blc_r blc_g blc_b slc_r slc_g slc_b : List Int) (blc_offset slc_offset : Int)
    (hwf : BlcSlcInput frame width height blc_r blc_g blc_b slc_r slc_g slc_b) :
    ∃ out, apply_blc_slc_correction frame width height (some blc_r) (some blc_g) (some blc_b)
        (some slc_r) (some slc_g) (some slc_b) blc_offset slc_offset = some out ∧
      (∀ i k raw blc slc, i < (width * height).toNat → k < 3 →
        frame[3 * i + k]? = some raw →
        (selBGR k blc_b blc_g blc_r)[i]? = some blc →
        (selBGR k slc_b slc_g slc_r)[i]? = some slc →
        blc_slc_no_overflow (raw.val : Int) blc slc blc_offset slc_offset →
        slc + slc_offset > blc + blc_offset →
        ((raw.val : Int) ≤ blc + blc_offset → out[3 * i + k]? = some 0) ∧
        (slc + slc_offset ≤ (raw.val : Int) → out[3 * i + k]? = some 255)) ∧
      (∀ i k j l raw1 raw2 blc slc, i < (width * height).toNat → k < 3 →
        j < (width * height).toNat → l < 3 →
        frame[3 * i + k]? = some raw1 → frame[3 * j + l]? = some raw2 →
        (selBGR k blc_b blc_g blc_r)[i]? = some blc →
        (selBGR k slc_b slc_g slc_r)[i]? = some slc →
        (selBGR l blc_b blc_g blc_r)[j]? = some blc →
        (selBGR l slc_b slc_g slc_r)[j]? = some slc →
        blc_slc_no_overflow (raw1.val : Int) blc slc blc_offset slc_offset →
        blc_slc_no_overflow (raw2.val : Int) blc slc blc_offset slc_offset →
        slc + slc_offset > blc + blc_offset → raw1 ≤ raw2 →
        ∃ b1 b2, out[3 * i + k]? = some b1 ∧ out[3 * j + l]? = some b2 ∧ b1 ≤ b2) := by
  obtain ⟨out, ho, _, hp⟩ := blc_slc_kernel_pointwise frame width height
    blc_r blc_g blc_b slc_r slc_g slc_b blc_offset slc_offset hwf
  refine ⟨out, ho, ?_, ?_⟩
  · intro i k raw blc slc hi hk hraw hblc hslc hno hspan
    have hv := blc_slc_stored_val hno
    constructor
    · intro hlow
      rw [hp i k raw blc slc hi hk hraw hblc hslc]
      congr 1
      apply Fin.ext
      have := hv.trans (blc_slc_reference_low hspan hlow)
      simpa using this
    · intro hhigh
      rw [hp i k raw blc slc hi hk hraw hblc hslc]
      congr 1
      apply Fin.ext
      have := hv.trans (blc_slc_reference_high hspan hhigh)
      have e : ((255 : Byte).val : Int) = 255 := by decide
      omega
  · intro i k j l raw1 raw2 blc slc hi hk hj hl hraw1 hraw2 hb1 hs1 hb2 hs2 hno1 hno2 hspan hle
    refine ⟨_, _, hp i k raw1 blc slc hi hk hraw1 hb1 hs1, hp j l raw2 blc slc hj hl hraw2 hb2 hs2,
      ?_⟩
    have hle' : (raw1.val : Int) ≤ (raw2.val : Int) := by
      have : raw1.val ≤ raw2.val := hle
      omega
    have hm := @blc_slc_reference_mono (raw1.val : Int) (raw2.val : Int) blc slc blc_offset
      slc_offset hspan hle'
    rw [← blc_slc_stored_val hno1, ← blc_slc_stored_val hno2] at hm
    show (clamp_byte _).val ≤ (clamp_byte _).val
    omega

/-- Witness of C20: a 2x1 frame with black level `20`, saturation level `200`
and samples below, between and above the two levels. -/
theorem blc_slc_saturation_and_monotonicity_witness :
    BlcSlcInput [10, 20, 100, 101, 200, 250] 2 1 [20, 20] [20, 20] [20, 20]
      [200, 200] [200, 200] [200, 200] ∧
    apply_blc_slc_correction [10, 20, 100, 101, 200, 250] 2 1 (some [20, 20]) (some [20, 20])
        (some [20, 20]) (some [200, 200]) (some [200, 200]) (some [200, 200]) 0 0 =
      some [0, 0, 113, 114, 255, 255] ∧
    ∃ out, apply_blc_slc_correction [10, 20, 100, 101, 200, 250] 2 1 (some [20, 20])
        (some [20, 20]) (some [20, 20]) (some [200, 200]) (some [200, 200]) (some [200, 200])
        0 0 = some out ∧
      (∀ i k raw blc slc, i < ((2 : Int) * 1).toNat → k < 3 →
        [(10 : Byte), 20, 100, 101, 200, 250][3 * i + k]? = some raw →
        (selBGR k [(20 : Int), 20] [20, 20] [20, 20])[i]? = some blc →
        (selBGR k [(200 : Int), 200] [200, 200] [200, 200])[i]? = some slc →
        blc_slc_no_overflow (raw.val : Int) blc slc 0 0 →
        slc + 0 > blc + 0 →
        ((raw.val : Int) ≤ blc + 0 → out[3 * i + k]? = some 0) ∧
        (slc + 0 ≤ (raw.val : Int) → out[3 * i + k]? = some 255)) ∧
      (∀ i k j l raw1 raw2 blc slc, i < ((2 : Int) * 1).toNat → k < 3 →
        j < ((2 : Int) * 1).toNat → l < 3 →
        [(10 : Byte), 20, 100, 101, 200, 250][3 * i + k]? = some raw1 →
        [(10 : Byte), 20, 100, 101, 200, 250][3 * j + l]? = some raw2 →
        (selBGR k [(20 : Int), 20] [20, 20] [20, 20])[i]? = some blc →
        (selBGR k [(200 : Int), 200] [200, 200] [200, 200])[i]? = some slc →
        (selBGR l [(20 : Int), 20] [20, 20] [20, 20])[j]? = some blc →
        (selBGR l [(200 : Int), 200] [200, 200] [200, 200])[j]? = some slc →
        blc_slc_no_overflow (raw1.val : Int) blc slc 0 0 →
        blc_slc_no_overflow (raw2.val : Int) blc slc 0 0 →
        slc + 0 > blc + 0 → raw1 ≤ raw2 →
        ∃ b1 b2, out[3 * i + k]? = some b1 ∧ out[3 * j + l]? = some b2 ∧ b1 ≤ b2) :=
  have hwf : BlcSlcInput [10, 20, 100, 101, 200, 250] 2 1 [20, 20] [20, 20] [20, 20]
      [200, 200] [200, 200] [200, 200] :=
    ⟨by decide, by decide, by decide, by decide, by decide, by decide, by decide, by decide,
      by decide⟩
  ⟨hwf, by decide, blc_slc_saturation_and_monotonicity _ _ _ _ _ _ _ _ _ _ _ hwf⟩

/-! ## C16: the plane stages are pointwise -/

/-- A loop establishes `P (i + k)` from `P i` when every iteration below `N`
succeeds and carries `P` one step further. -/
theorem forLoop_invariant {σ : Type} (body : Nat → σ → Option σ) (P : Nat → σ → Prop)
    (N : Nat)
    (hstep : ∀ i s, i < N → P i s → ∃ s', body i s = some s' ∧ P (i + 1) s') :
    ∀ k i s, i + k ≤ N → P i s → ∃ out, forLoop body k i s = some out ∧ P (i + k) out := by
  intro k
  induction k with
  | zero =>
    intro i s _ hP
    exact ⟨s, rfl, hP⟩
  | succ k ih =>
    intro i s hN hP
    obtain ⟨s', hs', hP'⟩ := hstep i s (by omega) hP
    obtain ⟨out, ho, hPo⟩ := ih (i + 1) s' (by omega) hP'
    refine ⟨out, ?_, ?_⟩
    · simp only [forLoop, hs', ho]
    · have e : i + (k + 1) = i + 1 + k := by omega
      rw [e]
      exact hPo

theorem getElem?_store_of_lt {α : Type} (buf : List α) (i : Nat) (v : α) (h : i < buf.length) :
    ∃ s', store buf i v = some s' ∧ s'.length = buf.length ∧
      ∀ j, s'[j]? = if i = j then some v else buf[j]? := by
  refine ⟨buf.set i v, by simp [store, h], List.length_set _ _ _, ?_⟩
  intro j
  rw [List.getElem?_set]
  by_cases hij : i = j
  · rw [if_pos hij, if_pos h, if_pos hij]
  · rw [if_neg hij, if_neg hij]

theorem extract_body_step (frame : List Byte) (n i : Nat) (s : List Byte × List Byte × List Byte)
    (hf : 3 * n ≤ frame.length) (hfit : 3 * n ≤ 2147483647) (hi : i < n)
    (hP : s.1.length = n ∧ s.2.1.length = n ∧ s.2.2.length = n ∧
      ∀ j, j < i → s.1[j]? = frame[3 * j]? ∧ s.2.1[j]? = frame[3 * j + 1]? ∧
        s.2.2[j]? = frame[3 * j + 2]?) :
    ∃ s', extract_body frame i s = some s' ∧
      (s'.1.length = n ∧ s'.2.1.length = n ∧ s'.2.2.length = n ∧
      ∀ j, j < i + 1 → s'.1[j]? = frame[3 * j]? ∧ s'.2.1[j]? = frame[3 * j + 1]? ∧
        s'.2.2[j]? = frame[3 * j + 2]?) := by
  obtain ⟨l1, l2, l3, hprev⟩ := hP
  obtain ⟨x0, x1, x2⟩ := pixel_index_exact i (by omega)
  have hb : i * 3 < frame.length := by omega
  have hg : i * 3 + 1 < frame.length := by omega
  have hr : i * 3 + 2 < frame.length := by omega
  obtain ⟨cb, hcb, lcb, gcb⟩ := getElem?_store_of_lt s.1 i frame[i * 3] (by omega)
  obtain ⟨cg, hcg, lcg, gcg⟩ := getElem?_store_of_lt s.2.1 i frame[i * 3 + 1] (by omega)
  obtain ⟨cr, hcr, lcr, gcr⟩ := getElem?_store_of_lt s.2.2 i frame[i * 3 + 2] (by omega)
  refine ⟨(cb, cg, cr), ?_, lcb.trans l1, lcg.trans l2, lcr.trans l3, ?_⟩
  · simp only [extract_body, x0, x1, x2, loadAt_natCast, List.getElem?_eq_getElem hb,
      List.getElem?_eq_getElem hg, List.getElem?_eq_getElem hr, Option.some_bind, hcb, hcg, hcr]
  · intro j hj
    show cb[j]? = frame[3 * j]? ∧ cg[j]? = frame[3 * j + 1]? ∧ cr[j]? = frame[3 * j + 2]?
    rw [gcb j, gcg j, gcr j]
    by_cases hij : i = j
    · subst hij
      have e : 3 * i = i * 3 := by omega
      rw [if_pos rfl, if_pos rfl, if_pos rfl, e, List.getElem?_eq_getElem hb,
        List.getElem?_eq_getElem hg, List.getElem?_eq_getElem hr]
      exact ⟨rfl, rfl, rfl⟩
    · rw [if_neg hij, if_neg hij, if_neg hij]
      exact hprev j (by omega)

/-- The extraction loop fills the three planes with the three channels of the
frame. -/
theorem extract_loop_spec (frame : List Byte) (n : Nat) (hf : 3 * n ≤ frame.length)
    (hfit : 3 * n ≤ 2147483647)
    (b0 g0 r0 : List Byte) (hb0 : b0.length = n) (hg0 : g0.length = n) (hr0 : r0.length = n) :
    ∃ cb cg cr, forLoop (extract_body frame) n 0 (b0, g0, r0) = some (cb, cg, cr) ∧
      cb.length = n ∧ cg.length = n ∧ cr.length = n ∧
      ∀ j, j < n → cb[j]? = frame[3 * j]? ∧ cg[j]? = frame[3 * j + 1]? ∧
        cr[j]? = frame[3 * j + 2]? := by
  obtain ⟨out, ho, hP⟩ := forLoop_invariant (extract_body frame)
    (fun i s => s.1.length = n ∧ s.2.1.length = n ∧ s.2.2.length = n ∧
      ∀ j, j < i → s.1[j]? = frame[3 * j]? ∧ s.2.1[j]? = frame[3 * j + 1]? ∧
        s.2.2[j]? = frame[3 * j + 2]?) n
    (fun i s hi hP => extract_body_step frame n i s hf hfit hi hP) n 0 (b0, g0, r0) (by omega)
    ⟨hb0, hg0, hr0, fun j hj => absurd hj (by omega)⟩
  obtain ⟨cb, cg, cr⟩ := out
  refine ⟨cb, cg, cr, ho, hP.1, hP.2.1, hP.2.2.1, ?_⟩
  intro j hj
  exact hP.2.2.2 j (by omega)

theorem merge_body_step (cb cg cr : List Byte) (n i : Nat) (s : List Byte)
    (hb : cb.length = n) (hg : cg.length = n) (hr : cr.length = n) (hi : i < n)
    (hfit : 3 * n ≤ 2147483647) (hs : 3 * (i + 1) ≤ s.length) :
    ∃ s', merge_body cb cg cr i s = some s' ∧ s'.length = s.length ∧
      ∀ j, s'[j]? = if 3 * i ≤ j ∧ j < 3 * (i + 1)
        then (s[j]?).map (fun _ => (selBGR (j % 3) cb cg cr).getD (j / 3) 0)
        else s[j]? := by
  have hib : i < cb.length := by omega
  have hig : i < cg.length := by omega
  have hir : i < cr.length := by omega
  obtain ⟨x0, x1, x2⟩ := pixel_index_exact i (by omega)
  obtain ⟨s1, h1, l1, g1⟩ := getElem?_store_of_lt s (i * 3) cb[i] (by omega)
  obtain ⟨s2, h2, l2, g2⟩ := getElem?_store_of_lt s1 (i * 3 + 1) cg[i] (by omega)
  obtain ⟨s3, h3, l3, g3⟩ := getElem?_store_of_lt s2 (i * 3 + 2) cr[i] (by omega)
  refine ⟨s3, ?_, by omega, ?_⟩
  · simp only [merge_body, x0, x1, x2, storeAt_natCast, List.getElem?_eq_getElem hib,
      List.getElem?_eq_getElem hig, List.getElem?_eq_getElem hir, Option.some_bind, h1, h2, h3]
  · intro j
    rw [g3 j, g2 j, g1 j]
    by_cases c0 : i * 3 = j
    · have hc : 3 * i ≤ j ∧ j < 3 * (i + 1) := by omega
      have m0 : j % 3 = 0 := by omega
      have d0 : j / 3 = i := by omega
      have hj : j < s.length := by omega
      rw [if_neg (by omega), if_neg (by omega), if_pos c0, if_pos hc, m0, d0,
        List.getElem?_eq_getElem hj]
      simp [selBGR, List.getD_eq_getElem?_getD, List.getElem?_eq_getElem hib]
    · by_cases c1 : i * 3 + 1 = j
      · have hc : 3 * i ≤ j ∧ j < 3 * (i + 1) := by omega
        have m0 : j % 3 = 1 := by omega
        have d0 : j / 3 = i := by omega
        have hj : j < s.length := by omega
        rw [if_neg (by omega), if_pos c1, if_pos hc, m0, d0, List.getElem?_eq_getElem hj]
        simp [selBGR, List.getD_eq_getElem?_getD, List.getElem?_eq_getElem hig]
      · by_cases c2 : i * 3 + 2 = j
        · have hc : 3 * i ≤ j ∧ j < 3 * (i + 1) := by omega
          have m0 : j % 3 = 2 := by omega
          have d0 : j / 3 = i := by omega
          have hj : j < s.length := by omega
          rw [if_pos c2, if_pos hc, m0, d0, List.getElem?_eq_getElem hj]
          simp [selBGR, List.getD_eq_getElem?_getD, List.getElem?_eq_getElem hir]
        · have hc : ¬ (3 * i ≤ j ∧ j < 3 * (i + 1)) := by omega
          rw [if_neg c2, if_neg c1, if_neg c0, if_neg hc]

/-- The merge loop interleaves the three planes into the first `3 * n` bytes of
the frame and leaves the rest alone. -/
theorem merge_loop_spec (cb cg cr : List Byte) (n : Nat) (frame : List Byte)
    (hb : cb.length = n) (hg : cg.length = n) (hr : cr.length = n)
    (hf : 3 * n ≤ frame.length) (hfit : 3 * n ≤ 2147483647) :
    ∃ out, forLoop (merge_body cb cg cr) n 0 frame = some out ∧ out.length = frame.length ∧
      (∀ i k, i < n → k < 3 → out[3 * i + k]? = (selBGR k cb cg cr)[i]?) ∧
      (∀ j, 3 * n ≤ j → out[j]? = frame[j]?) := by
  obtain ⟨out, ho, hl, hg'⟩ := forLoop_pointwise 3
    (fun j _ => (selBGR (j % 3) cb cg cr).getD (j / 3) 0) (merge_body cb cg cr) n
    (fun i s hi hs => merge_body_step cb cg cr n i s hb hg hr hi hfit hs) n 0 frame
    (by omega) (by omega)
  refine ⟨out, ho, hl, ?_, ?_⟩
  · intro i k hi hk
    have hc : 3 * 0 ≤ 3 * i + k ∧ 3 * i + k < 3 * (0 + n) := by omega
    have m0 : (3 * i + k) % 3 = k := by omega
    have d0 : (3 * i + k) / 3 = i := by omega
    have hj : 3 * i + k < frame.length := by omega
    have hlen : i < (selBGR k cb cg cr).length := by
      unfold selBGR
      split_ifs <;> omega
    rw [hg' (3 * i + k), if_pos hc, m0, d0, List.getElem?_eq_getElem hj,
      List.getElem?_eq_getElem hlen]
    simp [List.getD_eq_getElem?_getD, List.getElem?_eq_getElem hlen]
  · intro j hj
    have hc : ¬ (3 * 0 ≤ j ∧ j < 3 * (0 + n)) := by omega
    rw [hg' j, if_neg hc]

theorem length_replicate_zero (n : Nat) : (List.replicate n (0 : Byte)).length = n :=
  List.length_replicate _ _

/-- Effect of a plane stage whose kernel is the loop over `planeBody f`: on a
well-formed input it returns a frame of the same length in which the byte of
channel `k` of pixel `i` is `f` of the old byte and entry `i` of the map of
channel `k`. -/
theorem plane_step_spec (f : Int → Int → Int)
    (kernel : List Byte → Int → Option (List Int) → Option (List Byte))
    (hk : ∀ ch tp m, kernel ch tp m = forLoop (planeBody f m) tp.toNat 0 ch)
    (frame : List Byte) (width height : Int) (map_r map_g map_b : List Int)
    (hwf : PlaneStageInput frame width height map_r map_g map_b) :
    ∃ out, plane_step kernel frame (wrapInt (width * height)) (some map_r) (some map_g) (some map_b)
        = some out ∧
      out.length = frame.length ∧
      ∀ i k raw m, i < (width * height).toNat → k < 3 →
        frame[3 * i + k]? = some raw → (selBGR k map_b map_g map_r)[i]? = some m →
        out[3 * i + k]? = some (toByte (f (raw.val : Int) m)) := by
  obtain ⟨hd, hbf, hfl, hmr, hmg, hmb⟩ := hwf
  generalize width * height = N at *
  have hwrap : wrapInt N = N := wrapInt_of_isInt32 ⟨by omega, by omega⟩
  rw [hwrap]
  have hfit : 3 * N.toNat ≤ 2147483647 := by omega
  generalize hn : N.toNat = n at hfl hmr hmg hmb hfit
  obtain ⟨cb, cg, cr, hex, lb, lg, lr, hext⟩ := extract_loop_spec frame n (by omega) hfit
    (List.replicate n 0) (List.replicate n 0) (List.replicate n 0)
    (length_replicate_zero n) (length_replicate_zero n) (length_replicate_zero n)
  obtain ⟨ob, hob, lob, pob, _⟩ := planeLoop_spec f map_b n cb (by omega) (by omega)
  obtain ⟨og, hog, log, pog, _⟩ := planeLoop_spec f map_g n cg (by omega) (by omega)
  obtain ⟨or, hor, lor, por, _⟩ := planeLoop_spec f map_r n cr (by omega) (by omega)
  obtain ⟨out, hout, lout, pout, _⟩ := merge_loop_spec ob og or n frame
    (by omega) (by omega) (by omega) (by omega) hfit
  refine ⟨out, ?_, lout, ?_⟩
  · have ha : allocBytes N = some (List.replicate n 0) := by
      unfold allocBytes
      rw [if_neg (by omega), hn]
    simp only [plane_step, ha, hn, hex, hk, hob, hog, hor, hout]
  · intro i k raw m hi hk3 hraw hm
    rw [pout i k hi hk3]
    obtain ⟨e0, e1, e2⟩ := hext i hi
    by_cases k0 : k = 0
    · subst k0
      simp only [selBGR, if_true] at hm ⊢
      exact pob i raw m hi (by rw [e0]; exact hraw) hm
    · by_cases k1 : k = 1
      · subst k1
        simp only [selBGR, if_true, one_ne_zero, if_false] at hm ⊢
        exact pog i raw m hi (by rw [e1]; exact hraw) hm
      · have k2 : k = 2 := by omega
        subst k2
        simp only [selBGR, if_false, OfNat.ofNat_ne_zero, OfNat.ofNat_ne_one] at hm ⊢
        exact por i raw m hi (by rw [e2]; exact hraw) hm

theorem apply_glc_correction_eq (ch : List Byte) (tp : Int) (m : Option (List Int)) :
    apply_glc_correction ch tp m = forLoop (planeBody glc_value m) tp.toNat 0 ch := rfl

theorem apply_dark_glc_correction_eq (ch : List Byte) (tp : Int) (m : Option (List Int)) :
    apply_dark_glc_correction ch tp m = forLoop (planeBody dark_glc_value m) tp.toNat 0 ch := rfl

/-- C16. When only the GLC stage (resp. only the Dark GLC stage) of
`apply_corrections` runs on a well-formed input (pixel count `width * height`
not negative, byte count `3 * width * height` within the `int` range, frame and
maps of matching length), the pipeline returns the result
of that stage, the frame length is unchanged, and for every pixel
`i < width * height` and channel `k ∈ {0, 1, 2}` the output byte at `3 * i + k`
is the per-sample GLC (resp. Dark GLC) value of the input byte at `3 * i + k`
and entry `i` of the map of channel `k` (b-map for `k = 0`, g-map for `k = 1`,
r-map for `k = 2`): a function of that byte and that map entry only. -/
theorem plane_stages_pointwise (frame : List Byte) (width height : Int)
    (blc_r blc_g blc_b slc_r slc_g slc_b : Option (List Int))
    (glc_r glc_g glc_b dark_glc_r dark_glc_g dark_glc_b : List Int)
    (blc_offset slc_offset : Int)
    (hglc : PlaneStageInput frame width height glc_r glc_g glc_b)
    (hdark : PlaneStageInput frame width height dark_glc_r dark_glc_g dark_glc_b) :
    (∃ out, plane_step apply_glc_correction frame (wrapInt (width * height))
          (some glc_r) (some glc_g) (some glc_b) = some out ∧
        (∀ (dr dg db : Option (List Int)),
          apply_corrections frame width height blc_r blc_g blc_b slc_r slc_g slc_b
            (some glc_r) (some glc_g) (some glc_b) dr dg db
            false true false blc_offset slc_offset = some out) ∧
        out.length = frame.length ∧
        ∀ i k raw m, i < (width * height).toNat → k < 3 →
          frame[3 * i + k]? = some raw → (selBGR k glc_b glc_g glc_r)[i]? = some m →
          out[3 * i + k]? = some (toByte (glc_value (raw.val : Int) m))) ∧
    (∃ out, plane_step apply_dark_glc_correction frame (wrapInt (width * height))
          (some dark_glc_r) (some dark_glc_g) (some dark_glc_b) = some out ∧
        (∀ (gr gg gb : Option (List Int)),
          apply_corrections frame width height blc_r blc_g blc_b slc_r slc_g slc_b
            gr gg gb (some dark_glc_r) (some dark_glc_g) (some dark_glc_b)
            false false true blc_offset slc_offset = some out) ∧
        out.length = frame.length ∧
        ∀ i k raw m, i < (width * height).toNat → k < 3 →
          frame[3 * i + k]? = some raw →
          (selBGR k dark_glc_b dark_glc_g dark_glc_r)[i]? = some m →
          out[3 * i + k]? = some (toByte (dark_glc_value (raw.val : Int) m))) := by
  constructor
  · obtain ⟨out, ho, hl, hp⟩ := plane_step_spec glc_value apply_glc_correction
      apply_glc_correction_eq frame width height glc_r glc_g glc_b hglc
    refine ⟨out, ho, ?_, hl, hp⟩
    intro dr dg db
    simp [apply_corrections, ho]
  · obtain ⟨out, ho, hl, hp⟩ := plane_step_spec dark_glc_value apply_dark_glc_correction
      apply_dark_glc_correction_eq frame width height dark_glc_r dark_glc_g dark_glc_b hdark
    refine ⟨out, ho, ?_, hl, hp⟩
    intro gr gg gb
    simp [apply_corrections, ho]

/-- Witness of C16: a 2x1 frame with a different map per channel. -/
theorem plane_stages_pointwise_witness :
    PlaneStageInput [100, 100, 100, 30, 30, 30] 2 1 [60, 200] [127, 0] [200, 60] ∧
    PlaneStageInput [100, 100, 100, 30, 30, 30] 2 1 [100, 20] [0, 64] [20, 100] ∧
    plane_step apply_glc_correction [100, 100, 100, 30, 30, 30] (2 * 1)
      (some [60, 200]) (some [127, 0]) (some [200, 60]) = some [64, 100, 153, 63, 30, 19] ∧
    plane_step apply_dark_glc_correction [100, 100, 100, 30, 30, 30] (2 * 1)
      (some [100, 20]) (some [0, 64]) (some [20, 100]) = some [111, 100, 82, 24, 30, 69] ∧
    ((∃ out, plane_step apply_glc_correction [100, 100, 100, 30, 30, 30]
          (wrapInt ((2 : Int) * 1))
          (some [60, 200]) (some [127, 0]) (some [200, 60]) = some out ∧
        (∀ (dr dg db : Option (List Int)),
          apply_corrections [100, 100, 100, 30, 30, 30] 2 1 none none none none none none
            (some [60, 200]) (some [127, 0]) (some [200, 60]) dr dg db
            false true false 0 0 = some out) ∧
        out.length = [(100 : Byte), 100, 100, 30, 30, 30].length ∧
        ∀ i k raw m, i < ((2 : Int) * 1).toNat → k < 3 →
          [(100 : Byte), 100, 100, 30, 30, 30][3 * i + k]? = some raw →
          (selBGR k [(200 : Int), 60] [127, 0] [60, 200])[i]? = some m →
          out[3 * i + k]? = some (toByte (glc_value (raw.val : Int) m))) ∧
    (∃ out, plane_step apply_dark_glc_correction [100, 100, 100, 30, 30, 30]
          (wrapInt ((2 : Int) * 1))
          (some [100, 20]) (some [0, 64]) (some [20, 100]) = some out ∧
        (∀ (gr gg gb : Option (List Int)),
          apply_corrections [100, 100, 100, 30, 30, 30] 2 1 none none none none none none
            gr gg gb (some [100, 20]) (some [0, 64]) (some [20, 100])
            false false true 0 0 = some out) ∧
        out.length = [(100 : Byte), 100, 100, 30, 30, 30].length ∧
        ∀ i k raw m, i < ((2 : Int) * 1).toNat → k < 3 →
          [(100 : Byte), 100, 100, 30, 30, 30][3 * i + k]? = some raw →
          (selBGR k [(20 : Int), 100] [0, 64] [100, 20])[i]? = some m →
          out[3 * i + k]? = some (toByte (dark_glc_value (raw.val : Int) m)))) :=
  have hg : PlaneStageInput [100, 100, 100, 30, 30, 30] 2 1 [60, 200] [127, 0] [200, 60] :=
    ⟨by decide, by decide, by decide, by decide, by decide, by decide⟩
  have hd : PlaneStageInput [100, 100, 100, 30, 30, 30] 2 1 [100, 20] [0, 64] [20, 100] :=
    ⟨by decide, by decide, by decide, by decide, by decide, by decide⟩
  ⟨hg, hd, by decide, by decide,
    plane_stages_pointwise _ _ _ none none none none none none _ _ _ _ _ _ 0 0 hg hd⟩

/-! ## C14: when the BLC/SLC stage is skipped -/

/-- C14 as stated fails: the gate of STEP 1 tests `blc_r` and `slc_r` only. With
`blc_g` absent and the other five maps present the kernel runs on a 1x1 frame,
rewrites the blue byte (`10` becomes `6`) and then reads `blc_g[0]` through the
null pointer: the call does not return the unchanged frame. -/
theorem blc_slc_absent_green_map_runs :
    apply_corrections [10, 10, 10] 1 1 (some [5]) none (some [5])
        (some [200]) (some [200]) (some [200]) none none none none none none
        true false false 0 0 = none ∧
    apply_corrections [10, 10, 10] 1 1 (some [5]) none (some [5])
        (some [200]) (some [200]) (some [200]) none none none none none none
        true false false 0 0 ≠ some [10, 10, 10] ∧
    blc_slc_channel (some [5]) (some [200]) 0 0 0 0 [10, 10, 10] = some [6, 10, 10] ∧
    blc_slc_channel none (some [200]) 0 0 0 1 [6, 10, 10] = none := by
  decide

/-- C14, amended. For every frame, if `enable_blc_slc` is false or one of the
two red-channel maps `blc_r`, `slc_r` is absent, the BLC/SLC stage of
`apply_corrections` leaves the frame unchanged: the pipeline returns what the
GLC and Dark GLC stages compute from the input frame, and the input frame
itself when those two stages are disabled. -/
theorem blc_slc_stage_skipped (frame : List Byte) (width height : Int)
    (blc_r blc_g blc_b slc_r slc_g slc_b : Option (List Int))
    (glc_r glc_g glc_b : Option (List Int))
    (dark_glc_r dark_glc_g dark_glc_b : Option (List Int))
    (enable_blc_slc enable_glc enable_dark_glc : Bool)
    (blc_offset slc_offset : Int)
    (hskip : enable_blc_slc = false ∨ blc_r = none ∨ slc_r = none) :
    apply_corrections frame width height blc_r blc_g blc_b slc_r slc_g slc_b
        glc_r glc_g glc_b dark_glc_r dark_glc_g dark_glc_b
        enable_blc_slc enable_glc enable_dark_glc blc_offset slc_offset =
      (gatedStage (enable_glc = true ∧ glc_r.isSome = true)
          (fun f => plane_step apply_glc_correction f (wrapInt (width * height)) glc_r glc_g glc_b)
          frame).bind
        (gatedStage (enable_dark_glc = true ∧ dark_glc_r.isSome = true)
          (fun f => plane_step apply_dark_glc_correction f (wrapInt (width * height))
            dark_glc_r dark_glc_g dark_glc_b)) ∧
    apply_corrections frame width height blc_r blc_g blc_b slc_r slc_g slc_b
        glc_r glc_g glc_b dark_glc_r dark_glc_g dark_glc_b
        enable_blc_slc false false blc_offset slc_offset = some frame := by
  have hgate : ¬ (enable_blc_slc = true ∧ blc_r ≠ none ∧ slc_r ≠ none) := by
    rintro ⟨h1, h2, h3⟩
    rcases hskip with h | h | h
    · rw [h] at h1
      cases h1
    · exact h2 h
    · exact h3 h
  constructor
  · unfold apply_corrections gatedStage
    simp only [if_neg hgate]
    cases enable_glc <;> cases enable_dark_glc <;> cases glc_r <;> cases dark_glc_r <;>
      simp <;>
      (first
        | rfl
        | (cases plane_step apply_glc_correction frame (wrapInt (width * height)) _ glc_g glc_b <;> simp))
  · unfold apply_corrections
    simp only [if_neg hgate]
    simp

/-- Witness of C14 (amended): the flag is true, `slc_r` is absent, the green
and blue maps are present. -/
theorem blc_slc_stage_skipped_witness :
    apply_corrections [10, 10, 10] 1 1 (some [5]) (some [5]) (some [5])
        none (some [200]) (some [200]) none none none none none none
        true false false 0 0 =
      (gatedStage (false = true ∧ (none : Option (List Int)).isSome = true)
          (fun f => plane_step apply_glc_correction f (wrapInt (1 * 1)) none none none)
          [10, 10, 10]).bind
        (gatedStage (false = true ∧ (none : Option (List Int)).isSome = true)
          (fun f => plane_step apply_dark_glc_correction f (wrapInt (1 * 1)) none none none)) ∧
    apply_corrections [10, 10, 10] 1 1 (some [5]) (some [5]) (some [5])
        none (some [200]) (some [200]) none none none none none none
        true false false 0 0 = some [10, 10, 10] :=
  blc_slc_stage_skipped [10, 10, 10] 1 1 (some [5]) (some [5]) (some [5])
    none (some [200]) (some [200]) none none none none none none true false false 0 0
    (Or.inr (Or.inr rfl))

/-! ## C15: the order of the plane stages matters -/

/-- C15. There is a frame with grey maps and dark maps, all present and both
stages enabled, on which GLC followed by Dark GLC, which is what
`apply_corrections` computes, differs from Dark GLC followed by GLC: on the
1x1 frame `[100, 100, 100]` with grey reference `60` and dark reference `100`
the pipeline order gives `169` in every channel, the reversed order `141`. -/
theorem stage_order_is_load_bearing :
    ∃ (frame : List Byte) (width height : Int)
      (glc_r glc_g glc_b dark_glc_r dark_glc_g dark_glc_b : List Int),
      PlaneStageInput frame width height glc_r glc_g glc_b ∧
      PlaneStageInput frame width height dark_glc_r dark_glc_g dark_glc_b ∧
      apply_corrections frame width height none none none none none none
          (some glc_r) (some glc_g) (some glc_b)
          (some dark_glc_r) (some dark_glc_g) (some dark_glc_b)
          false true true 0 0 =
        (plane_step apply_glc_correction frame (wrapInt (width * height))
            (some glc_r) (some glc_g) (some glc_b)).bind
          (fun f => plane_step apply_dark_glc_correction f (wrapInt (width * height))
            (some dark_glc_r) (some dark_glc_g) (some dark_glc_b)) ∧
      (plane_step apply_glc_correction frame (wrapInt (width * height))
            (some glc_r) (some glc_g) (some glc_b)).bind
          (fun f => plane_step apply_dark_glc_correction f (wrapInt (width * height))
            (some dark_glc_r) (some dark_glc_g) (some dark_glc_b)) = some [169, 169, 169] ∧
      (plane_step apply_dark_glc_correction frame (wrapInt (width * height))
            (some dark_glc_r) (some dark_glc_g) (some dark_glc_b)).bind
          (fun f => plane_step apply_glc_correction f (wrapInt (width * height))
            (some glc_r) (some glc_g) (some glc_b)) = some [141, 141, 141] ∧
      (plane_step apply_glc_correction frame (wrapInt (width * height))
            (some glc_r) (some glc_g) (some glc_b)).bind
          (fun f => plane_step apply_dark_glc_correction f (wrapInt (width * height))
            (some dark_glc_r) (some dark_glc_g) (some dark_glc_b)) ≠
        (plane_step apply_dark_glc_correction frame (wrapInt (width * height))
            (some dark_glc_r) (some dark_glc_g) (some dark_glc_b)).bind
          (fun f => plane_step apply_glc_correction f (wrapInt (width * height))
            (some glc_r) (some glc_g) (some glc_b)) := by
  refine ⟨[100, 100, 100], 1, 1, [60], [60], [60], [100], [100], [100],
    ⟨by decide, by decide, by decide, by decide, by decide, by decide⟩,
    ⟨by decide, by decide, by decide, by decide, by decide, by decide⟩, ?_, ?_, ?_, ?_⟩
  · decide
  · decide
  · decide
  · decide

end RgbCorrection
